import Mathlib

/-!
Shallow embedding of the Muse marketplace contract
(`muse_marketplace.py`, PyTeal/Beaker, Algorand).

Machine integers are TEAL uint64 values: every arithmetic opcode
(`+`, `-`, `*`) panics on overflow/underflow, so the embedding models
them as checked operations returning `Option ℕ`.  A panic anywhere in
an operation rejects the whole transaction, which the embedding models
as the operation returning `none` (no state change, no effects).

Box storage is modelled as partial maps `ℕ → Option record` keyed by
asset id, one map per box namespace ("NFT", "AUC", "SPL", "RWA").
Addresses are modelled as natural numbers, with `0` for the zero
address.  Outbound inner transactions are collected as a list of
`Effect`s.
-/

namespace Muse

/-- Size bound of a TEAL uint64. -/
def U64 : ℕ := 2 ^ 64

/-- TEAL addition: panics (returns `none`) on overflow past 2^64-1. -/
def tAdd (a b : ℕ) : Option ℕ :=
  if a + b < U64 then some (a + b) else none

/-- TEAL subtraction: panics (returns `none`) on underflow. -/
def tSub (a b : ℕ) : Option ℕ :=
  if b ≤ a then some (a - b) else none

/-- TEAL multiplication: panics (returns `none`) on overflow past 2^64-1. -/
def tMul (a b : ℕ) : Option ℕ :=
  if a * b < U64 then some (a * b) else none

/-- MUSE_FEE_BPS constant from the source: 2.5% platform fee. -/
def MUSE_FEE_BPS : ℕ := 250

/-- MAX_ROYALTY_BPS constant from the source: 20% max royalty. -/
def MAX_ROYALTY_BPS : ℕ := 2000

/-- BASIS_POINTS constant from the source. -/
def BASIS_POINTS : ℕ := 10000

/-- ROUNDS_PER_MONTH constant from the source. -/
def ROUNDS_PER_MONTH : ℕ := 777600

/-- ANTI_SNIPE_ROUNDS constant from `place_bid`. -/
def ANTI_SNIPE_ROUNDS : ℕ := 75

/-- Flag bit 0: asset is a real-world asset. -/
def FLAG_IS_RWA : ℕ := 1

/-- Flag bit 1: RWA has been authenticated. -/
def FLAG_RWA_AUTH : ℕ := 2

/-- Flag bit 2: RWA has been physically redeemed. -/
def FLAG_RWA_REDEEMED : ℕ := 4

/-- Flag bit 3: royalty permanently waived. -/
def FLAG_ROYALTY_WAIVED : ℕ := 8

/-- Flag bit 4: asset currently in auction. -/
def FLAG_IN_AUCTION : ℕ := 16

/-- Flag bit 5: collaboration registration pending acceptance. -/
def FLAG_COLLAB_PENDING : ℕ := 32

/-- TEAL `BitwiseNot(FLAG_IN_AUCTION)` on uint64: the complement mask. -/
def NOT_IN_AUCTION : ℕ := U64 - 1 - FLAG_IN_AUCTION

/-- The "NFT" box record (fixed header of the packed box value). -/
structure NFTRecord where
  asset_id : ℕ
  price : ℕ
  royalty_bps : ℕ
  floor_bps : ℕ
  decay_start : ℕ
  buyout_price : ℕ
  transfers : ℕ
  flags : ℕ
  creator : ℕ
deriving Repr, DecidableEq

/-- One co-creator slot of the "SPL" box (40 bytes each in the source). -/
structure SplitEntry where
  addr : ℕ
  share_bps : ℕ
  accepted : ℕ
deriving Repr, DecidableEq

/-- The "SPL" box record: exactly 4 slots. -/
structure SplitRecord where
  e1 : SplitEntry
  e2 : SplitEntry
  e3 : SplitEntry
  e4 : SplitEntry
deriving Repr, DecidableEq

/-- The four slots of a split record, in loop order `i = 0,1,2,3`. -/
def SplitRecord.entries (sp : SplitRecord) : List SplitEntry :=
  [sp.e1, sp.e2, sp.e3, sp.e4]

/-- The "AUC" box record.  NOTE (faithful to the source): `start_auction`
writes `asset_id` into bytes [0:8] and then immediately overwrites those
same bytes with `reserve_price` ("store reserve in first slot
temporarily"); no later code ever reads bytes [0:8].  The field
`slot0_reserve` models those first 8 bytes. -/
structure AuctionRecord where
  slot0_reserve : ℕ
  end_round : ℕ
  highest_bid : ℕ
  highest_bidder : ℕ
  seller : ℕ
deriving Repr, DecidableEq

/-- The "RWA" box record. -/
structure RWARecord where
  physical_hash : ℕ
  custodian : ℕ
  authenticator : ℕ
  redemption_round : ℕ
deriving Repr, DecidableEq

/-- Global platform statistics (application global state). -/
structure Stats where
  total_volume : ℕ
  total_royalties_paid : ℕ
  nft_count : ℕ
  live_auctions : ℕ
deriving Repr, DecidableEq

/-- Whole contract state: global state plus the four box namespaces. -/
structure State where
  muse_treasury : ℕ
  app_addr : ℕ
  stats : Stats
  nft : ℕ → Option NFTRecord
  auc : ℕ → Option AuctionRecord
  spl : ℕ → Option SplitRecord
  rwa : ℕ → Option RWARecord

/-- Attached payment transaction (receiver and amount fields used). -/
structure Payment where
  receiver : ℕ
  amount : ℕ
deriving Repr, DecidableEq

/-- Outbound inner-transaction effects emitted by an operation. -/
inductive Effect where
  | pay (receiver amount : ℕ)
  | assetTransfer (asset_id receiver : ℕ)
  | assetFreeze (asset_id account : ℕ) (frozen : Bool)
deriving Repr, DecidableEq

/-- Update a box map at one key. -/
def upd {α : Type} (m : ℕ → Option α) (k : ℕ) (v : Option α) : ℕ → Option α :=
  fun j => if j = k then v else m j

/-- Subroutine `current_royalty_bps`: effective royalty with waiver and
time decay.  Branches exactly as the source: waived → 0; `decay_start == 0`
→ `royalty_bps`; `now < decay_start` → `royalty_bps`; otherwise compute
`decayed = royalty - (royalty - floor) * ((now - decay_start) / ROUNDS_PER_MONTH) / 100`
with TEAL checked arithmetic, and return `max(decayed, floor)`. -/
def current_royalty_bps (s : State) (now asset_id : ℕ) : Option ℕ := do
  let r ← s.nft asset_id
  if r.flags &&& FLAG_ROYALTY_WAIVED ≠ 0 then
    pure 0
  else if r.decay_start = 0 then
    pure r.royalty_bps
  else if now < r.decay_start then
    pure r.royalty_bps
  else
    let elapsed_units := (now - r.decay_start) / ROUNDS_PER_MONTH
    let diff ← tSub r.royalty_bps r.floor_bps
    let prod ← tMul diff elapsed_units
    let decayed ← tSub r.royalty_bps (prod / 100)
    pure (if decayed > r.floor_bps then decayed else r.floor_bps)

end Muse

namespace Muse

/-- Loop body of `distribute_royalties`: pay each of the 4 split slots
`share_amount = total_royalty * share_bps / BASIS_POINTS` and accumulate
`paid_to_splits` (TEAL checked arithmetic throughout). -/
def paySplits (total_royalty : ℕ) : List SplitEntry → ℕ → Option (ℕ × List Effect)
  | [], paid => some (paid, [])
  | e :: rest, paid => do
      let p ← tMul total_royalty e.share_bps
      let amt := p / BASIS_POINTS
      let paid2 ← tAdd paid amt
      let pr ← paySplits total_royalty rest paid2
      pure (pr.1, Effect.pay e.addr amt :: pr.2)

/-- Guarded split-payment phase of `distribute_royalties`: the loop runs
only `If(spl_box.hasValue(), ...)`; with no split box nothing is paid. -/
def splitsPart (s : State) (asset_id total_royalty : ℕ) : Option (ℕ × List Effect) :=
  match s.spl asset_id with
  | some sp => paySplits total_royalty sp.entries 0
  | none => some (0, ([] : List Effect))

/-- Subroutine `distribute_royalties`: pays the platform fee, each
registered co-creator slot (regardless of acceptance), and the remainder
of the royalty to the primary creator, then bumps the global
`total_royalties_paid` counter. -/
def distribute_royalties (s : State) (asset_id sale_price royalty_bps : ℕ) :
    Option (State × List Effect) := do
  let nftRec ← s.nft asset_id
  let trP ← tMul sale_price royalty_bps
  let total_royalty := trP / BASIS_POINTS
  let mfP ← tMul sale_price MUSE_FEE_BPS
  let muse_fee := mfP / BASIS_POINTS
  let ps ← splitsPart s asset_id total_royalty
  let remEffs := if total_royalty > ps.1
    then [Effect.pay nftRec.creator (total_royalty - ps.1)] else []
  let newRoyal ← tAdd s.stats.total_royalties_paid total_royalty
  pure ({ s with stats := { s.stats with total_royalties_paid := newRoyal } },
        Effect.pay s.muse_treasury muse_fee :: (ps.2 ++ remEffs))

/-- Royalty phase of a sale, as in the source:
`If(royalty_bps > 0, distribute_royalties(...))` — skipped entirely (no
state change, no payments, not even the platform fee) when the effective
royalty is 0. -/
def distPart (s : State) (asset_id sale_price rb : ℕ) :
    Option (State × List Effect) :=
  if 0 < rb then distribute_royalties s asset_id sale_price rb
  else some (s, ([] : List Effect))

/-- External method `buy_nft`: guarded fixed-price purchase.  Guards in
source order; on success distributes royalties (only when the effective
royalty is positive), pays the seller net, transfers the ASA, bumps the
record's transfer count and the global volume. -/
def buy_nft (s : State) (now sender asset_id : ℕ) (payment : Payment) :
    Option (State × List Effect) := do
  let r ← s.nft asset_id
  if r.price = 0 then none else
  if r.flags &&& FLAG_IN_AUCTION ≠ 0 then none else
  if r.flags &&& FLAG_RWA_REDEEMED ≠ 0 then none else
  if r.flags &&& FLAG_IS_RWA ≠ 0 ∧ r.flags &&& FLAG_RWA_AUTH = 0 then none else
  if payment.receiver ≠ s.app_addr then none else
  if payment.amount ≠ r.price then none else do
    let rb ← current_royalty_bps s now asset_id
    let s1effs ← distPart s asset_id r.price rb
    let trP ← tMul r.price rb
    let sub1 ← tSub r.price (trP / BASIS_POINTS)
    let mfP ← tMul r.price MUSE_FEE_BPS
    let net_to_seller ← tSub sub1 (mfP / BASIS_POINTS)
    let newTransfers ← tAdd r.transfers 1
    let newVolume ← tAdd s1effs.1.stats.total_volume r.price
    pure ({ s1effs.1 with
              nft := upd s1effs.1.nft asset_id (some { r with transfers := newTransfers }),
              stats := { s1effs.1.stats with total_volume := newVolume } },
          s1effs.2 ++ [Effect.pay r.creator net_to_seller,
                       Effect.assetTransfer asset_id sender])

/-- External method `buy_out_royalty`: one-time permanent royalty waiver,
95% of the buy-out to the creator, the rest to the treasury. -/
def buy_out_royalty (s : State) (asset_id : ℕ) (payment : Payment) :
    Option (State × List Effect) := do
  let r ← s.nft asset_id
  if r.buyout_price = 0 then none else
  if r.flags &&& FLAG_ROYALTY_WAIVED ≠ 0 then none else
  if payment.amount ≠ r.buyout_price then none else
  if payment.receiver ≠ s.app_addr then none else do
    let cutP ← tMul r.buyout_price 9500
    let creator_cut := cutP / BASIS_POINTS
    let muse_cut ← tSub r.buyout_price creator_cut
    let r2 := { r with flags := r.flags ||| FLAG_ROYALTY_WAIVED, buyout_price := 0 }
    pure ({ s with nft := upd s.nft asset_id (some r2) },
          [Effect.pay r.creator creator_cut,
           Effect.pay s.muse_treasury muse_cut])

/-- External method `start_auction`: escrows the ASA, creates the auction
box (whose first 8 bytes end up holding `reserve_price` — the source
overwrites the `asset_id` slot with it and never reads it back), sets
`IN_AUCTION`, bumps `live_auctions`. -/
def start_auction (s : State) (now sender asset_id duration_rounds reserve_price : ℕ) :
    Option (State × List Effect) := do
  let r ← s.nft asset_id
  if r.flags &&& FLAG_IN_AUCTION ≠ 0 then none else
  if r.flags &&& FLAG_RWA_REDEEMED ≠ 0 then none else
  if duration_rounds = 0 then none else do
    let endR ← tAdd now duration_rounds
    let a : AuctionRecord :=
      { slot0_reserve := reserve_price, end_round := endR, highest_bid := 0,
        highest_bidder := 0, seller := sender }
    let newLive ← tAdd s.stats.live_auctions 1
    let r2 := { r with flags := r.flags ||| FLAG_IN_AUCTION }
    pure ({ s with
              auc := upd s.auc asset_id (some a),
              nft := upd s.nft asset_id (some r2),
              stats := { s.stats with live_auctions := newLive } },
          [Effect.assetTransfer asset_id s.app_addr])

/-- External method `place_bid`: asserts the auction box exists, the
auction is still running, the bid strictly exceeds the current highest
bid, and the payment goes to the app; refunds the previous bidder (if
any), records the new bid/bidder, and applies the anti-snipe extension.
Faithful to the source, no reserve-price condition appears anywhere. -/
def place_bid (s : State) (now sender asset_id : ℕ) (payment : Payment) :
    Option (State × List Effect) := do
  let a ← s.auc asset_id
  if ¬ now < a.end_round then none else
  if ¬ payment.amount > a.highest_bid then none else
  if payment.receiver ≠ s.app_addr then none else do
    let refundEffs := if a.highest_bidder ≠ 0
      then [Effect.pay a.highest_bidder a.highest_bid] else []
    let newEnd ←
      if a.end_round - now < ANTI_SNIPE_ROUNDS then tAdd a.end_round ANTI_SNIPE_ROUNDS
      else some a.end_round
    let a2 := { a with highest_bid := payment.amount,
                       highest_bidder := sender, end_round := newEnd }
    pure ({ s with auc := upd s.auc asset_id (some a2) }, refundEffs)

/-- External method `settle_auction`: after `end_round`, either returns
the ASA to the seller (no bidder) or distributes the winning bid and
transfers the ASA to the winner; either branch clears `IN_AUCTION`,
deletes the auction box and decrements `live_auctions`. -/
def settle_auction (s : State) (now asset_id : ℕ) : Option (State × List Effect) := do
  let a ← s.auc asset_id
  let r ← s.nft asset_id
  if now < a.end_round then none else
  if a.highest_bidder = 0 then do
    let newLive ← tSub s.stats.live_auctions 1
    let r2 := { r with flags := r.flags &&& NOT_IN_AUCTION }
    pure ({ s with
              nft := upd s.nft asset_id (some r2),
              auc := upd s.auc asset_id none,
              stats := { s.stats with live_auctions := newLive } },
          [Effect.assetTransfer asset_id a.seller])
  else do
    let rb ← current_royalty_bps s now asset_id
    let s1effs ← distPart s asset_id a.highest_bid rb
    let trP ← tMul a.highest_bid rb
    let sub1 ← tSub a.highest_bid (trP / BASIS_POINTS)
    let mfP ← tMul a.highest_bid MUSE_FEE_BPS
    let net ← tSub sub1 (mfP / BASIS_POINTS)
    let newTransfers ← tAdd r.transfers 1
    let newVolume ← tAdd s1effs.1.stats.total_volume a.highest_bid
    let newLive ← tSub s1effs.1.stats.live_auctions 1
    let r2 := { r with transfers := newTransfers,
                       flags := r.flags &&& NOT_IN_AUCTION }
    let st2 := { s1effs.1.stats with total_volume := newVolume, live_auctions := newLive }
    pure ({ s1effs.1 with
              nft := upd s1effs.1.nft asset_id (some r2),
              auc := upd s1effs.1.auc asset_id none,
              stats := st2 },
          s1effs.2 ++ [Effect.pay a.seller net,
                       Effect.assetTransfer asset_id a.highest_bidder])

/-- External method `validate_physical_asset`: authenticator-only,
sets `FLAG_RWA_AUTH` exactly once, unfreezes the ASA. -/
def validate_physical_asset (s : State) (sender asset_id : ℕ) :
    Option (State × List Effect) := do
  let rw ← s.rwa asset_id
  let r ← s.nft asset_id
  if rw.authenticator ≠ sender then none else
  if r.flags &&& FLAG_RWA_AUTH ≠ 0 then none else
    let r2 := { r with flags := r.flags ||| FLAG_RWA_AUTH }
    pure ({ s with nft := upd s.nft asset_id (some r2) },
          [Effect.assetFreeze asset_id sender false])

/-- External method `redeem_physical_asset`: custodian-only, requires
authenticated and not yet redeemed; records the redemption round, sets
`FLAG_RWA_REDEEMED` and clears `FLAG_IN_AUCTION`. -/
def redeem_physical_asset (s : State) (now sender asset_id : ℕ) :
    Option (State × List Effect) := do
  let rw ← s.rwa asset_id
  let r ← s.nft asset_id
  if rw.custodian ≠ sender then none else
  if r.flags &&& FLAG_RWA_REDEEMED ≠ 0 then none else
  if r.flags &&& FLAG_RWA_AUTH = 0 then none else
    let r2 := { r with flags := (r.flags ||| FLAG_RWA_REDEEMED) &&& NOT_IN_AUCTION }
    pure ({ s with
              rwa := upd s.rwa asset_id (some { rw with redemption_round := now }),
              nft := upd s.nft asset_id (some r2) },
          ([] : List Effect))

/-- External method `register_co_creators`: creator-only, split sum at
most `BASIS_POINTS`; writes the 4 slots with `accepted = 0` and sets
`FLAG_COLLAB_PENDING`. -/
def register_co_creators (s : State) (sender asset_id a1 b1 a2 b2 a3 b3 a4 b4 : ℕ) :
    Option (State × List Effect) := do
  let r ← s.nft asset_id
  if r.creator ≠ sender then none else
  if b1 + b2 + b3 + b4 > BASIS_POINTS then none else
    let updFlags := upd s.nft asset_id (some { r with flags := r.flags ||| FLAG_COLLAB_PENDING })
    pure ({ s with
              spl := upd s.spl asset_id (some
                { e1 := { addr := a1, share_bps := b1, accepted := 0 },
                  e2 := { addr := a2, share_bps := b2, accepted := 0 },
                  e3 := { addr := a3, share_bps := b3, accepted := 0 },
                  e4 := { addr := a4, share_bps := b4, accepted := 0 } }),
              nft := updFlags },
          ([] : List Effect))

/-- Loop body of `accept_collaboration`: every slot whose address equals
the caller (the source loop has no early exit) gets `accepted := 1`. -/
def acceptEntry (sender : ℕ) (e : SplitEntry) : SplitEntry :=
  if e.addr = sender then { e with accepted := 1 } else e

/-- External method `accept_collaboration`: flips the caller's slot(s) to
accepted; fails if the caller matches no slot. -/
def accept_collaboration (s : State) (sender asset_id : ℕ) :
    Option (State × List Effect) := do
  let sp ← s.spl asset_id
  if sp.e1.addr = sender ∨ sp.e2.addr = sender ∨
     sp.e3.addr = sender ∨ sp.e4.addr = sender then
    pure ({ s with spl := upd s.spl asset_id (some
      { e1 := acceptEntry sender sp.e1, e2 := acceptEntry sender sp.e2,
        e3 := acceptEntry sender sp.e3, e4 := acceptEntry sender sp.e4 }) },
      ([] : List Effect))
  else none

/-- External method `mint_nft`.  The freshly created ASA id (the ledger
guarantees it is new) is passed as `new_asset_id`; the inner
asset-config transaction itself is outside the model. -/
def mint_nft (s : State) (now sender new_asset_id price_microalgos royalty_bps
    floor_bps decay_after_rounds buyout_price : ℕ) :
    Option (State × List Effect) := do
  if royalty_bps > MAX_ROYALTY_BPS then none else
  if floor_bps > royalty_bps then none else do
    let ds ← if decay_after_rounds = 0 then some 0 else tAdd now decay_after_rounds
    let newCount ← tAdd s.stats.nft_count 1
    pure ({ s with
              nft := upd s.nft new_asset_id (some
                { asset_id := new_asset_id, price := price_microalgos,
                  royalty_bps := royalty_bps, floor_bps := floor_bps,
                  decay_start := ds, buyout_price := buyout_price,
                  transfers := 0, flags := 0, creator := sender }),
              stats := { s.stats with nft_count := newCount } },
          ([] : List Effect))

/-- External method `mint_rwa`.  Note (faithful to the source): unlike
`mint_nft` there is no `floor_bps ≤ royalty_bps` assertion here. -/
def mint_rwa (s : State) (now sender new_asset_id physical_hash custodian
    authenticator price_microalgos royalty_bps floor_bps decay_after_rounds
    buyout_price : ℕ) : Option (State × List Effect) := do
  if royalty_bps > MAX_ROYALTY_BPS then none else do
    let ds ← if decay_after_rounds = 0 then some 0 else tAdd now decay_after_rounds
    let newCount ← tAdd s.stats.nft_count 1
    pure ({ s with
              nft := upd s.nft new_asset_id (some
                { asset_id := new_asset_id, price := price_microalgos,
                  royalty_bps := royalty_bps, floor_bps := floor_bps,
                  decay_start := ds, buyout_price := buyout_price,
                  transfers := 0, flags := FLAG_IS_RWA, creator := sender }),
              rwa := upd s.rwa new_asset_id (some
                { physical_hash := physical_hash, custodian := custodian,
                  authenticator := authenticator, redemption_round := 0 }),
              stats := { s.stats with nft_count := newCount } },
          ([] : List Effect))

/-- External method `update_treasury`: contract-creator-only global
treasury change; touches no box. -/
def update_treasury (s : State) (sender app_creator new_treasury : ℕ) :
    Option (State × List Effect) :=
  if sender = app_creator
  then some ({ s with muse_treasury := new_treasury }, ([] : List Effect))
  else none

end Muse

namespace Muse

/-- Characterization of checked TEAL addition. -/
theorem tAdd_eq_some {a b c : ℕ} : tAdd a b = some c ↔ a + b < U64 ∧ c = a + b := by
  unfold tAdd; split <;> simp_all <;> omega

/-- Characterization of checked TEAL subtraction. -/
theorem tSub_eq_some {a b c : ℕ} : tSub a b = some c ↔ b ≤ a ∧ c = a - b := by
  unfold tSub; split <;> simp_all <;> omega

/-- Characterization of checked TEAL multiplication. -/
theorem tMul_eq_some {a b c : ℕ} : tMul a b = some c ↔ a * b < U64 ∧ c = a * b := by
  unfold tMul; split <;> simp_all <;> omega

/-- Reading back the updated key. -/
theorem upd_self {α : Type} (m : ℕ → Option α) (k : ℕ) (v : Option α) :
    upd m k v k = v := by simp [upd]

/-- Reading any other key is unchanged. -/
theorem upd_ne {α : Type} (m : ℕ → Option α) {j k : ℕ} (v : Option α) (h : j ≠ k) :
    upd m k v j = m j := by simp [upd, h]

/-- Total microAlgos moved by the payment effects of a list (asset
transfers and freezes carry no microAlgos). -/
def paySum : List Effect → ℕ
  | [] => 0
  | Effect.pay _ amt :: rest => amt + paySum rest
  | Effect.assetTransfer _ _ :: rest => paySum rest
  | Effect.assetFreeze _ _ _ :: rest => paySum rest

/-- Truncating division is superadditive. -/
theorem div_add_div_le (a b d : ℕ) : a / d + b / d ≤ (a + b) / d := by
  rcases Nat.eq_zero_or_pos d with h | h
  · subst h; simp
  · rw [Nat.le_div_iff_mul_le h, Nat.add_mul]
    exact Nat.add_le_add (Nat.div_mul_le_self a d) (Nat.div_mul_le_self b d)

/-- A single-bit flag test in terms of `testBit`. -/
theorem land_two_pow_ne_zero {x i : ℕ} : x &&& 2 ^ i ≠ 0 ↔ x.testBit i = true := by
  rw [Nat.and_two_pow]
  cases h : x.testBit i <;> simp [h] <;> positivity

/-- Setting bits with `BitwiseOr` never clears a set flag. -/
theorem lor_preserves_flag {x c i : ℕ} (h : x &&& 2 ^ i ≠ 0) :
    (x ||| c) &&& 2 ^ i ≠ 0 := by
  rw [land_two_pow_ne_zero] at h ⊢
  simp [Nat.testBit_lor, h]

/-- Masking with `NOT_IN_AUCTION` keeps every bit below 4. -/
theorem mask_preserves_low_flag {x i : ℕ} (hi : i < 4) (h : x &&& 2 ^ i ≠ 0) :
    (x &&& NOT_IN_AUCTION) &&& 2 ^ i ≠ 0 := by
  rw [land_two_pow_ne_zero] at h ⊢
  rw [Nat.testBit_land, h, Bool.true_and]
  interval_cases i <;> decide

/-- Masking with `NOT_IN_AUCTION` clears `FLAG_IN_AUCTION`. -/
theorem mask_clears_in_auction (x : ℕ) : (x &&& NOT_IN_AUCTION) &&& FLAG_IN_AUCTION = 0 := by
  have h4 : FLAG_IN_AUCTION = 2 ^ 4 := rfl
  have hm : NOT_IN_AUCTION.testBit 4 = false := by decide
  rw [h4, Nat.and_two_pow, Nat.testBit_land, hm]
  simp

end Muse

namespace Muse

/-- Example global stats used by concrete witnesses. -/
def baseStats : Stats :=
  { total_volume := 0, total_royalties_paid := 0, nft_count := 1, live_auctions := 1 }

/-- Concrete state holding one auction box at asset id 7. -/
def aucState (a : AuctionRecord) : State :=
  { muse_treasury := 90, app_addr := 99, stats := baseStats,
    nft := fun _ => none, auc := upd (fun _ => none) 7 (some a),
    spl := fun _ => none, rwa := fun _ => none }

/-- Concrete state holding one plain NFT box at asset id 7. -/
def nftState (r : NFTRecord) : State :=
  { muse_treasury := 90, app_addr := 99, stats := baseStats,
    nft := upd (fun _ => none) 7 (some r), auc := fun _ => none,
    spl := fun _ => none, rwa := fun _ => none }

/-- Full inversion of a successful `place_bid`. -/
theorem place_bid_inv {s : State} {now sender asset_id : ℕ} {payment : Payment}
    {s2 : State} {effs : List Effect} {a : AuctionRecord}
    (ha : s.auc asset_id = some a)
    (h : place_bid s now sender asset_id payment = some (s2, effs)) :
    now < a.end_round ∧ a.highest_bid < payment.amount ∧
    payment.receiver = s.app_addr ∧
    effs = (if a.highest_bidder ≠ 0
            then [Effect.pay a.highest_bidder a.highest_bid] else []) ∧
    ∃ newEnd,
      ((a.end_round - now < ANTI_SNIPE_ROUNDS ∧
          newEnd = a.end_round + ANTI_SNIPE_ROUNDS) ∨
       (ANTI_SNIPE_ROUNDS ≤ a.end_round - now ∧ newEnd = a.end_round)) ∧
      s2 = { s with auc := upd s.auc asset_id (some { a with
              highest_bid := payment.amount, highest_bidder := sender,
              end_round := newEnd }) } := by
  unfold place_bid at h
  rw [ha] at h
  simp only [Option.bind_eq_bind, Option.some_bind, Option.pure_def] at h
  split at h
  · exact absurd h (by simp)
  split at h
  · exact absurd h (by simp)
  split at h
  · exact absurd h (by simp)
  rename_i h1 h2 h3
  split at h
  · rename_i h4
    unfold tAdd at h
    split at h
    · simp only [Option.some_bind, Option.some_inj, Prod.mk.injEq] at h
      exact ⟨by omega, by omega, by tauto, h.2.symm,
             a.end_round + ANTI_SNIPE_ROUNDS, Or.inl ⟨h4, rfl⟩, h.1.symm⟩
    · exact absurd h (by simp)
  · rename_i h4
    simp only [Option.some_bind, Option.some_inj, Prod.mk.injEq] at h
    exact ⟨by omega, by omega, by tauto, h.2.symm,
           a.end_round, Or.inr ⟨by omega, rfl⟩, h.1.symm⟩

/-- C5: every successful `place_bid` on an auction that already has a
highest bidder emits exactly one refund payment, of exactly the previous
`highest_bid`, to the previous `highest_bidder`, in the same atomic
operation that records the new bid; a failing bid changes nothing. -/
theorem claim_C5 {s : State} {now sender asset_id : ℕ} {payment : Payment}
    {s2 : State} {effs : List Effect} {a : AuctionRecord}
    (ha : s.auc asset_id = some a) (hb : a.highest_bidder ≠ 0)
    (h : place_bid s now sender asset_id payment = some (s2, effs)) :
    effs = [Effect.pay a.highest_bidder a.highest_bid] ∧
    ∃ a2, s2.auc asset_id = some a2 ∧
      a2.highest_bid = payment.amount ∧ a2.highest_bidder = sender := by
  obtain ⟨h1, h2, h3, heffs, newEnd, hcase, hs2⟩ := place_bid_inv ha h
  constructor
  · rw [heffs, if_pos hb]
  · refine ⟨AuctionRecord.mk a.slot0_reserve newEnd payment.amount sender a.seller,
      ?_, rfl, rfl⟩
    rw [hs2]
    exact upd_self _ _ _

/-- Concrete post-state for the C5 witness. -/
def c5s2 : State :=
  { aucState ⟨100, 1000, 40, 8, 5⟩ with
      auc := upd (aucState ⟨100, 1000, 40, 8, 5⟩).auc 7 (some ⟨100, 1000, 50, 42, 5⟩) }

/-- Witness for C5 at a concrete input. -/
theorem claim_C5_witness :
    ([Effect.pay 8 40] : List Effect) = [Effect.pay 8 40] ∧
    ∃ a2, c5s2.auc 7 = some a2 ∧ a2.highest_bid = 50 ∧ a2.highest_bidder = 42 :=
  @claim_C5 (aucState ⟨100, 1000, 40, 8, 5⟩) 10 42 7 ⟨99, 50⟩ c5s2
    [Effect.pay 8 40] ⟨100, 1000, 40, 8, 5⟩ rfl (by decide) (by rfl)

/-- C6: an accepted bid placed with `end_round - now < 75` moves
`end_round` to exactly `end_round + 75` (not `now + 75`); otherwise
`end_round` is unchanged.  The rule is stated for every bid, so it
re-applies on each subsequent bid without bound. -/
theorem claim_C6 {s : State} {now sender asset_id : ℕ} {payment : Payment}
    {s2 : State} {effs : List Effect} {a : AuctionRecord}
    (ha : s.auc asset_id = some a)
    (h : place_bid s now sender asset_id payment = some (s2, effs)) :
    ∃ a2, s2.auc asset_id = some a2 ∧
      (a.end_round - now < ANTI_SNIPE_ROUNDS →
        a2.end_round = a.end_round + ANTI_SNIPE_ROUNDS) ∧
      (ANTI_SNIPE_ROUNDS ≤ a.end_round - now → a2.end_round = a.end_round) := by
  obtain ⟨h1, h2, h3, heffs, newEnd, hcase, hs2⟩ := place_bid_inv ha h
  refine ⟨AuctionRecord.mk a.slot0_reserve newEnd payment.amount sender a.seller,
    ?_, ?_, ?_⟩
  · rw [hs2]; exact upd_self _ _ _
  · intro hlate
    rcases hcase with ⟨_, rfl⟩ | ⟨hfar, _⟩
    · rfl
    · omega
  · intro hfar
    rcases hcase with ⟨hlate, _⟩ | ⟨_, rfl⟩
    · omega
    · rfl

/-- Concrete post-state for the C6 witness (bid at round 950 on an
auction ending at round 1000: extended to 1075). -/
def c6s2 : State :=
  { aucState ⟨100, 1000, 0, 0, 5⟩ with
      auc := upd (aucState ⟨100, 1000, 0, 0, 5⟩).auc 7 (some ⟨100, 1075, 50, 42, 5⟩) }

/-- Witness for C6 at a concrete input. -/
theorem claim_C6_witness :
    ∃ a2, c6s2.auc 7 = some a2 ∧
      ((1000 : ℕ) - 950 < ANTI_SNIPE_ROUNDS →
        a2.end_round = 1000 + ANTI_SNIPE_ROUNDS) ∧
      (ANTI_SNIPE_ROUNDS ≤ (1000 : ℕ) - 950 → a2.end_round = 1000) :=
  @claim_C6 (aucState ⟨100, 1000, 0, 0, 5⟩) 950 42 7 ⟨99, 50⟩ c6s2 []
    ⟨100, 1000, 0, 0, 5⟩ rfl (by rfl)

/-- C3 (refuting evaluation): starting an auction with
`reserve_price = 100` on a fresh asset and then bidding only 50 at round
10 SUCCEEDS — `place_bid` checks `bid > highest_bid` but never compares
against the reserve price (which `start_auction` parked over bytes [0:8]
of the auction box and nothing ever reads), so a below-reserve first bid
is accepted, contradicting the claim that it must be rejected. -/
theorem claim_C3 :
    ((start_auction
        (nftState ⟨7, 1000, 500, 250, 0, 0, 0, 0, 3⟩) 1 5 7 999 100).bind
      (fun p1 => place_bid p1.1 10 42 7 ⟨99, 50⟩)).map
        (fun p => ((p.1.auc 7).map AuctionRecord.highest_bid,
                   (p.1.auc 7).map AuctionRecord.slot0_reserve, p.2))
      = some (some 50, some 100, []) := by
  rfl

end Muse

namespace Muse

/-- Waived branch of `current_royalty_bps`: always returns 0. -/
theorem current_royalty_waived {s : State} {now asset_id : ℕ} {r : NFTRecord}
    (hr : s.nft asset_id = some r) (hw : r.flags &&& FLAG_ROYALTY_WAIVED ≠ 0) :
    current_royalty_bps s now asset_id = some 0 := by
  unfold current_royalty_bps
  rw [hr]
  simp only [Option.bind_eq_bind, Option.some_bind, Option.pure_def]
  rw [if_pos hw]

/-- Pre-decay branches of `current_royalty_bps`: royalty unchanged. -/
theorem current_royalty_predecay {s : State} {now asset_id : ℕ} {r : NFTRecord}
    (hr : s.nft asset_id = some r) (hw : r.flags &&& FLAG_ROYALTY_WAIVED = 0)
    (hd : r.decay_start = 0 ∨ now < r.decay_start) :
    current_royalty_bps s now asset_id = some r.royalty_bps := by
  unfold current_royalty_bps
  rw [hr]
  simp only [Option.bind_eq_bind, Option.some_bind, Option.pure_def]
  rw [if_neg (by simp [hw])]
  by_cases h0 : r.decay_start = 0
  · rw [if_pos h0]
  · rw [if_neg h0, if_pos (by tauto)]

/-- Decay branch of `current_royalty_bps` when the TEAL intermediates
stay inside uint64. -/
theorem current_royalty_decay {s : State} {now asset_id : ℕ} {r : NFTRecord}
    (hr : s.nft asset_id = some r) (hw : r.flags &&& FLAG_ROYALTY_WAIVED = 0)
    (hd : r.decay_start ≠ 0) (hn : ¬ now < r.decay_start)
    (hfl : r.floor_bps ≤ r.royalty_bps)
    (hov : (r.royalty_bps - r.floor_bps) *
      ((now - r.decay_start) / ROUNDS_PER_MONTH) < U64)
    (hun : (r.royalty_bps - r.floor_bps) *
      ((now - r.decay_start) / ROUNDS_PER_MONTH) / 100 ≤ r.royalty_bps) :
    current_royalty_bps s now asset_id =
      some (max (r.royalty_bps - (r.royalty_bps - r.floor_bps) *
        ((now - r.decay_start) / ROUNDS_PER_MONTH) / 100) r.floor_bps) := by
  unfold current_royalty_bps
  rw [hr]
  simp only [Option.bind_eq_bind, Option.some_bind, Option.pure_def]
  rw [if_neg (by simp [hw]), if_neg hd, if_neg hn]
  unfold tSub tMul
  rw [if_pos hfl]
  simp only [Option.some_bind]
  rw [if_pos hov]
  simp only [Option.some_bind]
  rw [if_pos hun]
  simp only [Option.some_bind, Option.some_inj]
  split <;> omega

/-- Inversion of the decay branch of `current_royalty_bps`. -/
theorem current_royalty_decay_inv {s : State} {now asset_id v : ℕ} {r : NFTRecord}
    (hr : s.nft asset_id = some r) (hw : r.flags &&& FLAG_ROYALTY_WAIVED = 0)
    (hd : r.decay_start ≠ 0) (hn : ¬ now < r.decay_start)
    (h : current_royalty_bps s now asset_id = some v) :
    r.floor_bps ≤ r.royalty_bps ∧
    (r.royalty_bps - r.floor_bps) *
      ((now - r.decay_start) / ROUNDS_PER_MONTH) < U64 ∧
    (r.royalty_bps - r.floor_bps) *
      ((now - r.decay_start) / ROUNDS_PER_MONTH) / 100 ≤ r.royalty_bps ∧
    v = max (r.royalty_bps - (r.royalty_bps - r.floor_bps) *
      ((now - r.decay_start) / ROUNDS_PER_MONTH) / 100) r.floor_bps := by
  unfold current_royalty_bps at h
  rw [hr] at h
  simp only [Option.bind_eq_bind, Option.some_bind, Option.pure_def] at h
  rw [if_neg (by simp [hw]), if_neg hd, if_neg hn] at h
  unfold tSub tMul at h
  split at h
  · simp only [Option.some_bind] at h
    split at h
    · simp only [Option.some_bind] at h
      split at h
      · simp only [Option.some_bind, Option.some_inj] at h
        refine ⟨by omega, by omega, by omega, ?_⟩
        split at h <;> omega
      · exact absurd h (by simp)
    · exact absurd h (by simp)
  · exact absurd h (by simp)

/-- Every value returned by `current_royalty_bps` is at most the
record's base `royalty_bps`. -/
theorem current_royalty_le {s : State} {now asset_id v : ℕ} {r : NFTRecord}
    (hr : s.nft asset_id = some r)
    (h : current_royalty_bps s now asset_id = some v) : v ≤ r.royalty_bps := by
  by_cases hw : r.flags &&& FLAG_ROYALTY_WAIVED ≠ 0
  · rw [current_royalty_waived hr hw] at h
    simp only [Option.some_inj] at h
    omega
  · push_neg at hw
    by_cases hd : r.decay_start = 0 ∨ now < r.decay_start
    · rw [current_royalty_predecay hr hw hd] at h
      simp only [Option.some_inj] at h
      omega
    · push_neg at hd
      obtain ⟨hfl, _, _, hv⟩ :=
        current_royalty_decay_inv hr hw hd.1 (by omega) h
      omega

end Muse

namespace Muse

/-- Decay branch when the final subtraction would underflow: the call
fails (TEAL panic), rejecting the whole transaction. -/
theorem current_royalty_decay_underflow {s : State} {now asset_id : ℕ}
    {r : NFTRecord}
    (hr : s.nft asset_id = some r) (hw : r.flags &&& FLAG_ROYALTY_WAIVED = 0)
    (hd : r.decay_start ≠ 0) (hn : ¬ now < r.decay_start)
    (hfl : r.floor_bps ≤ r.royalty_bps)
    (hov : (r.royalty_bps - r.floor_bps) *
      ((now - r.decay_start) / ROUNDS_PER_MONTH) < U64)
    (hun : r.royalty_bps < (r.royalty_bps - r.floor_bps) *
      ((now - r.decay_start) / ROUNDS_PER_MONTH) / 100) :
    current_royalty_bps s now asset_id = none := by
  unfold current_royalty_bps
  rw [hr]
  simp only [Option.bind_eq_bind, Option.some_bind, Option.pure_def]
  rw [if_neg (by simp [hw]), if_neg hd, if_neg hn]
  unfold tSub tMul
  rw [if_pos hfl]
  simp only [Option.some_bind]
  rw [if_pos hov]
  simp only [Option.some_bind]
  rw [if_neg (by omega)]
  rfl

/-- Formula named by the claim for the decayed royalty:
`max(royalty_bps - (royalty_bps - floor_bps) * ((now - decay_start) / ROUNDS_PER_MONTH) / 100, floor_bps)`
with truncating (ℕ) subtraction and division.  Written from the claim's
words, for comparison against `current_royalty_bps`. -/
def claimedDecayFormula (royalty_bps floor_bps decay_start now : ℕ) : ℕ :=
  max (royalty_bps -
    (royalty_bps - floor_bps) * ((now - decay_start) / ROUNDS_PER_MONTH) / 100)
    floor_bps

/-- C2 (counterexample): for the record (royalty 1000, floor 0,
decay_start 1) at `now = 1 + 201·ROUNDS_PER_MONTH`, the claim's formula
yields `floor_bps = 0`, but the code's TEAL subtraction
`royalty - (royalty-floor)*elapsed_units/100` underflows (1000 < 2010)
and the whole call fails; the function therefore does not implement the
claimed formula for arbitrarily large `now - decay_start`. -/
theorem claim_C2_counterexample :
    current_royalty_bps (nftState ⟨7, 5, 1000, 0, 1, 0, 0, 0, 3⟩)
        (1 + 777600 * 201) 7 = none ∧
    claimedDecayFormula 1000 0 1 (1 + 777600 * 201) = 0 := by
  constructor
  · rfl
  · rfl

/-- C2 (amended): `current_royalty_bps` returns 0 when waived and
`royalty_bps` unchanged when `decay_start = 0` or `now < decay_start`,
as claimed; in the decay regime it returns exactly the claimed
truncating formula whenever the TEAL intermediates fit
(`(royalty-floor)·elapsed_units < 2^64` and
`(royalty-floor)·elapsed_units/100 ≤ royalty`), and when the final
subtraction would underflow the call fails (`none`) instead of
returning `floor_bps`. -/
theorem claim_C2 :
    (∀ (s : State) (asset_id now : ℕ) (r : NFTRecord),
        s.nft asset_id = some r → r.flags &&& FLAG_ROYALTY_WAIVED ≠ 0 →
        current_royalty_bps s now asset_id = some 0) ∧
    (∀ (s : State) (asset_id now : ℕ) (r : NFTRecord),
        s.nft asset_id = some r → r.flags &&& FLAG_ROYALTY_WAIVED = 0 →
        (r.decay_start = 0 ∨ now < r.decay_start) →
        current_royalty_bps s now asset_id = some r.royalty_bps) ∧
    (∀ (s : State) (asset_id now : ℕ) (r : NFTRecord),
        s.nft asset_id = some r → r.flags &&& FLAG_ROYALTY_WAIVED = 0 →
        r.decay_start ≠ 0 → r.decay_start ≤ now →
        r.floor_bps ≤ r.royalty_bps →
        (r.royalty_bps - r.floor_bps) *
          ((now - r.decay_start) / ROUNDS_PER_MONTH) < U64 →
        (r.royalty_bps - r.floor_bps) *
          ((now - r.decay_start) / ROUNDS_PER_MONTH) / 100 ≤ r.royalty_bps →
        current_royalty_bps s now asset_id =
          some (claimedDecayFormula r.royalty_bps r.floor_bps r.decay_start now)) ∧
    (∀ (s : State) (asset_id now : ℕ) (r : NFTRecord),
        s.nft asset_id = some r → r.flags &&& FLAG_ROYALTY_WAIVED = 0 →
        r.decay_start ≠ 0 → r.decay_start ≤ now →
        r.floor_bps ≤ r.royalty_bps →
        (r.royalty_bps - r.floor_bps) *
          ((now - r.decay_start) / ROUNDS_PER_MONTH) < U64 →
        r.royalty_bps < (r.royalty_bps - r.floor_bps) *
          ((now - r.decay_start) / ROUNDS_PER_MONTH) / 100 →
        current_royalty_bps s now asset_id = none) := by
  refine ⟨?_, ?_, ?_, ?_⟩
  · intro s asset_id now r hr hw
    exact current_royalty_waived hr hw
  · intro s asset_id now r hr hw hd
    exact current_royalty_predecay hr hw hd
  · intro s asset_id now r hr hw hd hn hfl hov hun
    rw [current_royalty_decay hr hw hd (by omega) hfl hov hun]
    rfl
  · intro s asset_id now r hr hw hd hn hfl hov hun
    exact current_royalty_decay_underflow hr hw hd (by omega) hfl hov hun

/-- Witness for (the amended) C2 at a concrete decaying record:
royalty 1000, floor 500, decay_start 1, ten decay units elapsed. -/
theorem claim_C2_witness :
    current_royalty_bps (nftState ⟨7, 5, 1000, 500, 1, 0, 0, 0, 3⟩)
        (1 + 777600 * 10) 7 =
      some (claimedDecayFormula 1000 500 1 (1 + 777600 * 10)) :=
  claim_C2.2.2.1 (nftState ⟨7, 5, 1000, 500, 1, 0, 0, 0, 3⟩) 7
    (1 + 777600 * 10) ⟨7, 5, 1000, 500, 1, 0, 0, 0, 3⟩ rfl (by decide)
    (by decide) (by decide) (by decide) (by decide) (by decide)

end Muse

namespace Muse

/-- C7: `buy_nft` fails, with no state mutation and no payment effect,
whenever the record is missing, `price = 0`, `IN_AUCTION` is set,
`RWA_REDEEMED` is set, `IS_RWA` is set without `RWA_AUTHENTICATED`, or
the attached payment amount differs from `price` in either direction
(the guards are evaluated in this source order, each producing the same
observable outcome: the whole call is rejected). -/
theorem claim_C7 {s : State} {now sender asset_id : ℕ} {payment : Payment}
    (h : s.nft asset_id = none ∨
      ∃ r, s.nft asset_id = some r ∧
        (r.price = 0 ∨ r.flags &&& FLAG_IN_AUCTION ≠ 0 ∨
         r.flags &&& FLAG_RWA_REDEEMED ≠ 0 ∨
         (r.flags &&& FLAG_IS_RWA ≠ 0 ∧ r.flags &&& FLAG_RWA_AUTH = 0) ∨
         payment.amount ≠ r.price)) :
    buy_nft s now sender asset_id payment = none := by
  rcases h with hnone | ⟨r, hr, hcond⟩
  · unfold buy_nft
    rw [hnone]
    rfl
  · unfold buy_nft
    rw [hr, Option.bind_eq_bind, Option.some_bind]
    split
    · rfl
    split
    · rfl
    split
    · rfl
    split
    · rfl
    split
    · rfl
    split
    · rfl
    rename_i h1 h2 h3 h4 h5 h6
    exfalso
    rcases hcond with h | h | h | h | h
    · exact h1 h
    · exact h2 h
    · exact h3 h
    · exact h4 h
    · exact h6 h

/-- Witness for C7 at a concrete input: overpaying (2000 against a list
price of 1000) is rejected. -/
theorem claim_C7_witness :
    buy_nft (nftState ⟨7, 1000, 500, 250, 0, 0, 0, 0, 3⟩) 5 42 7 ⟨99, 2000⟩ = none :=
  claim_C7 (Or.inr ⟨⟨7, 1000, 500, 250, 0, 0, 0, 0, 3⟩, rfl,
    Or.inr (Or.inr (Or.inr (Or.inr (by decide))))⟩)

end Muse

namespace Muse

/-- Platform fee of a sale, as computed in the source:
`sale_price * MUSE_FEE_BPS / BASIS_POINTS`. -/
def museFee (sale_price : ℕ) : ℕ := sale_price * MUSE_FEE_BPS / BASIS_POINTS

/-- Total royalty of a sale: `sale_price * royalty_bps / BASIS_POINTS`. -/
def totalRoyalty (sale_price royalty_bps : ℕ) : ℕ :=
  sale_price * royalty_bps / BASIS_POINTS

/-- One slot's royalty share: `total_royalty * share_bps / BASIS_POINTS`. -/
def shareAmount (total_royalty share_bps : ℕ) : ℕ :=
  total_royalty * share_bps / BASIS_POINTS

/-- Sum of the four slots' share amounts (0 with no split box). -/
def sharesPaid (s : State) (asset_id total_royalty : ℕ) : ℕ :=
  match s.spl asset_id with
  | some sp => ((sp.entries).map (fun e => shareAmount total_royalty e.share_bps)).sum
  | none => 0

/-- New stats after `distribute_royalties` bumps the royalty counter. -/
def bumpRoyalties (s : State) (amt : ℕ) : State :=
  { s with stats := { s.stats with total_royalties_paid :=
      s.stats.total_royalties_paid + amt } }

/-- The remainder payment of `distribute_royalties` (emitted only when
`total_royalty > paid`). -/
def remainderEffs (creator total_royalty paid : ℕ) : List Effect :=
  if total_royalty > paid then [Effect.pay creator (total_royalty - paid)] else []

/-- Payment amounts add over list append. -/
theorem paySum_append (xs ys : List Effect) :
    paySum (xs ++ ys) = paySum xs + paySum ys := by
  induction xs with
  | nil => simp [paySum]
  | cons e rest ih =>
    cases e <;> simp [paySum, ih] <;> omega

/-- The remainder effects always pay exactly `total_royalty - paid`. -/
theorem paySum_remainderEffs (creator total_royalty paid : ℕ) :
    paySum (remainderEffs creator total_royalty paid) = total_royalty - paid := by
  unfold remainderEffs
  split <;> simp [paySum] <;> omega

/-- Inversion of the split loop: the accumulator comes back as the sum
of the slot share amounts, which is also what the emitted payments sum
to. -/
theorem paySplits_inv {TR : ℕ} {es : List SplitEntry} {paid0 : ℕ}
    {pr : ℕ × List Effect} (h : paySplits TR es paid0 = some pr) :
    pr.1 = paid0 + (es.map (fun e => shareAmount TR e.share_bps)).sum ∧
    paySum pr.2 = (es.map (fun e => shareAmount TR e.share_bps)).sum := by
  induction es generalizing paid0 pr with
  | nil =>
    unfold paySplits at h
    simp only [Option.some_inj] at h
    subst h
    simp [paySum]
  | cons e rest ih =>
    unfold paySplits at h
    simp only [Option.bind_eq_bind, Option.bind_eq_some, Option.pure_def,
      Option.some_inj] at h
    obtain ⟨p, hp, paid2, hpaid2, pr2, hpr2, hpr⟩ := h
    obtain ⟨hpU, rfl⟩ := tMul_eq_some.mp hp
    obtain ⟨hp2U, rfl⟩ := tAdd_eq_some.mp hpaid2
    obtain ⟨ih1, ih2⟩ := ih hpr2
    subst hpr
    constructor
    · simp only [List.map_cons, List.sum_cons]
      rw [ih1]
      unfold shareAmount
      omega
    · simp only [List.map_cons, List.sum_cons, paySum]
      rw [ih2]
      unfold shareAmount
      omega

/-- The share amounts sum to at most
`TR * (sum of share_bps) / BASIS_POINTS`. -/
theorem sharesSum_le_div (TR : ℕ) (es : List SplitEntry) :
    (es.map (fun e => shareAmount TR e.share_bps)).sum ≤
      TR * (es.map SplitEntry.share_bps).sum / BASIS_POINTS := by
  induction es with
  | nil => simp
  | cons e rest ih =>
    simp only [List.map_cons, List.sum_cons]
    calc shareAmount TR e.share_bps +
          (rest.map (fun e => shareAmount TR e.share_bps)).sum
        ≤ TR * e.share_bps / BASIS_POINTS +
          TR * (rest.map SplitEntry.share_bps).sum / BASIS_POINTS :=
          Nat.add_le_add_left ih _
      _ ≤ (TR * e.share_bps + TR * (rest.map SplitEntry.share_bps).sum) /
            BASIS_POINTS := div_add_div_le _ _ _
      _ = TR * (e.share_bps + (rest.map SplitEntry.share_bps).sum) /
            BASIS_POINTS := by rw [Nat.mul_add]

/-- When the registered shares sum to at most `BASIS_POINTS`, the share
amounts sum to at most the total royalty. -/
theorem sharesSum_le (TR : ℕ) (es : List SplitEntry)
    (hb : (es.map SplitEntry.share_bps).sum ≤ BASIS_POINTS) :
    (es.map (fun e => shareAmount TR e.share_bps)).sum ≤ TR := by
  calc (es.map (fun e => shareAmount TR e.share_bps)).sum
      ≤ TR * (es.map SplitEntry.share_bps).sum / BASIS_POINTS :=
        sharesSum_le_div TR es
    _ ≤ TR * BASIS_POINTS / BASIS_POINTS :=
        Nat.div_le_div_right (Nat.mul_le_mul_left TR hb)
    _ = TR := Nat.mul_div_cancel TR (by norm_num [BASIS_POINTS])

/-- Inversion of a successful `distribute_royalties`. -/
theorem distribute_inv {s : State} {asset_id sale_price royalty_bps : ℕ}
    {s2 : State} {effs : List Effect}
    (h : distribute_royalties s asset_id sale_price royalty_bps = some (s2, effs)) :
    ∃ r paid sEffs,
      s.nft asset_id = some r ∧
      sale_price * royalty_bps < U64 ∧
      sale_price * MUSE_FEE_BPS < U64 ∧
      splitsPart s asset_id (totalRoyalty sale_price royalty_bps) = some (paid, sEffs) ∧
      s.stats.total_royalties_paid + totalRoyalty sale_price royalty_bps < U64 ∧
      s2 = bumpRoyalties s (totalRoyalty sale_price royalty_bps) ∧
      effs = Effect.pay s.muse_treasury (museFee sale_price) ::
        (sEffs ++ remainderEffs r.creator (totalRoyalty sale_price royalty_bps) paid) := by
  unfold distribute_royalties at h
  simp only [Option.bind_eq_bind, Option.bind_eq_some, Option.pure_def,
    Option.some_inj, Prod.mk.injEq] at h
  obtain ⟨r, hr, trP, htrP, mfP, hmfP, ps, hps, newRoyal, hnr, hs2, heffs⟩ := h
  obtain ⟨hU1, rfl⟩ := tMul_eq_some.mp htrP
  obtain ⟨hU2, rfl⟩ := tMul_eq_some.mp hmfP
  obtain ⟨hU3, rfl⟩ := tAdd_eq_some.mp hnr
  refine ⟨r, ps.1, ps.2, hr, hU1, hU2, ?_, hU3, hs2.symm, ?_⟩
  · unfold totalRoyalty
    rw [hps]
  · rw [← heffs]
    rfl

/-- New state assembled at the end of a successful `buy_nft`. -/
def buyResult (s1 : State) (asset_id : ℕ) (r : NFTRecord) : State :=
  { s1 with
      nft := upd s1.nft asset_id (some { r with transfers := r.transfers + 1 }),
      stats := { s1.stats with total_volume := s1.stats.total_volume + r.price } }

/-- Inversion of a successful `buy_nft`. -/
theorem buy_nft_inv {s : State} {now sender asset_id : ℕ} {payment : Payment}
    {s2 : State} {effs : List Effect}
    (h : buy_nft s now sender asset_id payment = some (s2, effs)) :
    ∃ r rb s1 dEffs,
      s.nft asset_id = some r ∧
      r.price ≠ 0 ∧
      r.flags &&& FLAG_IN_AUCTION = 0 ∧
      r.flags &&& FLAG_RWA_REDEEMED = 0 ∧
      ¬(r.flags &&& FLAG_IS_RWA ≠ 0 ∧ r.flags &&& FLAG_RWA_AUTH = 0) ∧
      payment.receiver = s.app_addr ∧
      payment.amount = r.price ∧
      current_royalty_bps s now asset_id = some rb ∧
      distPart s asset_id r.price rb = some (s1, dEffs) ∧
      r.price * rb < U64 ∧
      totalRoyalty r.price rb ≤ r.price ∧
      r.price * MUSE_FEE_BPS < U64 ∧
      museFee r.price ≤ r.price - totalRoyalty r.price rb ∧
      r.transfers + 1 < U64 ∧
      s1.stats.total_volume + r.price < U64 ∧
      s2 = buyResult s1 asset_id r ∧
      effs = dEffs ++
        [Effect.pay r.creator (r.price - totalRoyalty r.price rb - museFee r.price),
         Effect.assetTransfer asset_id sender] := by
  unfold buy_nft at h
  rw [Option.bind_eq_bind] at h
  rw [Option.bind_eq_some] at h
  obtain ⟨r, hr, h⟩ := h
  split at h
  · exact absurd h (by simp)
  split at h
  · exact absurd h (by simp)
  split at h
  · exact absurd h (by simp)
  split at h
  · exact absurd h (by simp)
  split at h
  · exact absurd h (by simp)
  split at h
  · exact absurd h (by simp)
  rename_i hp hfa hfr hfw hrecv hamt
  simp only [Option.bind_eq_bind, Option.bind_eq_some, Option.some_inj,
    Prod.mk.injEq] at h
  obtain ⟨rb, hrb, s1effs, hdist, trP, htrP, sub1, hsub1, mfP, hmfP,
    net, hnet, nt, hnt, nv, hnv, hs2, heffs⟩ := h
  obtain ⟨hU1, rfl⟩ := tMul_eq_some.mp htrP
  obtain ⟨hle1, rfl⟩ := tSub_eq_some.mp hsub1
  obtain ⟨hU2, rfl⟩ := tMul_eq_some.mp hmfP
  obtain ⟨hle2, rfl⟩ := tSub_eq_some.mp hnet
  obtain ⟨hU3, rfl⟩ := tAdd_eq_some.mp hnt
  obtain ⟨hU4, rfl⟩ := tAdd_eq_some.mp hnv
  refine ⟨r, rb, s1effs.1, s1effs.2, hr, by tauto, by tauto, by tauto, by tauto,
    by tauto, by tauto, hrb, by rw [hdist], hU1, hle1, hU2, hle2, hU3, hU4,
    ?_, ?_⟩
  · rfl
  · rfl

/-- Value of `sharesPaid` with a registered split box. -/
theorem sharesPaid_some {s : State} {asset_id TR : ℕ} {sp : SplitRecord}
    (h : s.spl asset_id = some sp) :
    sharesPaid s asset_id TR =
      ((sp.entries).map (fun e => shareAmount TR e.share_bps)).sum := by
  unfold sharesPaid
  rw [h]

/-- Value of `sharesPaid` with no split box. -/
theorem sharesPaid_none {s : State} {asset_id TR : ℕ}
    (h : s.spl asset_id = none) : sharesPaid s asset_id TR = 0 := by
  unfold sharesPaid
  rw [h]

/-- The split loop returns `sharesPaid` as its accumulator and as the
sum of its payment effects; with the registered shares capped at 10000
bps it pays out at most the total royalty. -/
theorem splitsPart_paid {s : State} {asset_id TR paid : ℕ}
    {sEffs : List Effect}
    (hsum : ∀ sp, s.spl asset_id = some sp →
      sp.e1.share_bps + sp.e2.share_bps + sp.e3.share_bps + sp.e4.share_bps ≤
        BASIS_POINTS)
    (hsp : splitsPart s asset_id TR = some (paid, sEffs)) :
    paid = sharesPaid s asset_id TR ∧
    paySum sEffs = sharesPaid s asset_id TR ∧
    sharesPaid s asset_id TR ≤ TR := by
  unfold splitsPart at hsp
  cases hspl : s.spl asset_id with
  | none =>
    rw [hspl] at hsp
    simp only [Option.some_inj, Prod.mk.injEq] at hsp
    obtain ⟨h1, h2⟩ := hsp
    subst h1
    subst h2
    rw [sharesPaid_none hspl]
    simp [paySum]
  | some sp =>
    rw [hspl] at hsp
    obtain ⟨h1, h2⟩ := paySplits_inv hsp
    simp only [Nat.zero_add] at h1 h2
    rw [sharesPaid_some hspl]
    have hbps : (sp.entries.map SplitEntry.share_bps).sum =
        sp.e1.share_bps + sp.e2.share_bps + sp.e3.share_bps + sp.e4.share_bps := by
      simp [SplitRecord.entries]
      omega
    have hble := sharesSum_le TR sp.entries
      (by rw [hbps]; exact hsum sp hspl)
    exact ⟨by omega, h2, hble⟩

/-- Inversion of a successful `settle_auction` with a winning bidder:
the sale price is the highest bid, royalties are distributed through
`distPart`, the seller gets the net of bid minus royalty minus fee, and
the asset goes to the winner. -/
theorem settle_bid_inv {s : State} {now asset_id : ℕ} {s2 : State}
    {effs : List Effect} {a : AuctionRecord}
    (ha : s.auc asset_id = some a) (hw : a.highest_bidder ≠ 0)
    (h : settle_auction s now asset_id = some (s2, effs)) :
    ∃ r rb s1 dEffs,
      s.nft asset_id = some r ∧
      current_royalty_bps s now asset_id = some rb ∧
      distPart s asset_id a.highest_bid rb = some (s1, dEffs) ∧
      a.highest_bid * rb < U64 ∧
      totalRoyalty a.highest_bid rb ≤ a.highest_bid ∧
      a.highest_bid * MUSE_FEE_BPS < U64 ∧
      museFee a.highest_bid ≤ a.highest_bid - totalRoyalty a.highest_bid rb ∧
      effs = dEffs ++
        [Effect.pay a.seller (a.highest_bid - totalRoyalty a.highest_bid rb -
            museFee a.highest_bid),
         Effect.assetTransfer asset_id a.highest_bidder] := by
  unfold settle_auction at h
  rw [Option.bind_eq_bind, Option.bind_eq_some] at h
  obtain ⟨a2, ha2, h⟩ := h
  rw [ha] at ha2
  injection ha2 with ha2
  subst ha2
  rw [Option.bind_eq_bind, Option.bind_eq_some] at h
  obtain ⟨r, hr, h⟩ := h
  split at h
  · exact absurd h (by simp)
  simp only [Option.bind_eq_bind, Option.bind_eq_some, Option.pure_def,
    Option.some_inj, Prod.mk.injEq] at h
  obtain ⟨rb, hrb, s1effs, hdist, trP, htrP, sub1, hsub1, mfP, hmfP, net,
    hnet, nt, hnt, nv, hnv, nl, hnl, hs2, heffs⟩ := h
  obtain ⟨hU1, rfl⟩ := tMul_eq_some.mp htrP
  obtain ⟨hle1, rfl⟩ := tSub_eq_some.mp hsub1
  obtain ⟨hU2, rfl⟩ := tMul_eq_some.mp hmfP
  obtain ⟨hle2, rfl⟩ := tSub_eq_some.mp hnet
  subst hs2
  subst heffs
  exact ⟨r, rb, s1effs.1, s1effs.2, hr, hrb, by rw [hdist], hU1, hle1, hU2,
    hle2, rfl⟩

end Muse

namespace Muse

/-- C1: on the royalty-distribution path (effective royalty positive,
registered shares summing to at most 10000 bps) of either a fixed-price
buy or an auction settlement with a winning bidder, the amounts paid out
recompose the sale price exactly:
`seller_net + muse_fee + Σ share_amounts + remainder = price`, and the
payment effects actually emitted also sum to exactly the sale price —
no microAlgo is lost or created. -/
theorem claim_C1 :
    (∀ (s : State) (now sender asset_id : ℕ) (payment : Payment) (s2 : State)
        (effs : List Effect) (r : NFTRecord) (rb : ℕ),
      s.nft asset_id = some r →
      current_royalty_bps s now asset_id = some rb → 0 < rb →
      (∀ sp, s.spl asset_id = some sp →
        sp.e1.share_bps + sp.e2.share_bps + sp.e3.share_bps + sp.e4.share_bps ≤
          BASIS_POINTS) →
      buy_nft s now sender asset_id payment = some (s2, effs) →
      ((r.price - totalRoyalty r.price rb - museFee r.price) + museFee r.price +
          sharesPaid s asset_id (totalRoyalty r.price rb) +
          (totalRoyalty r.price rb -
            sharesPaid s asset_id (totalRoyalty r.price rb)) = r.price ∧
        paySum effs = r.price)) ∧
    (∀ (s : State) (now asset_id : ℕ) (s2 : State) (effs : List Effect)
        (a : AuctionRecord) (rb : ℕ),
      s.auc asset_id = some a → a.highest_bidder ≠ 0 →
      current_royalty_bps s now asset_id = some rb → 0 < rb →
      (∀ sp, s.spl asset_id = some sp →
        sp.e1.share_bps + sp.e2.share_bps + sp.e3.share_bps + sp.e4.share_bps ≤
          BASIS_POINTS) →
      settle_auction s now asset_id = some (s2, effs) →
      ((a.highest_bid - totalRoyalty a.highest_bid rb - museFee a.highest_bid) +
          museFee a.highest_bid +
          sharesPaid s asset_id (totalRoyalty a.highest_bid rb) +
          (totalRoyalty a.highest_bid rb -
            sharesPaid s asset_id (totalRoyalty a.highest_bid rb))
        = a.highest_bid ∧
        paySum effs = a.highest_bid)) := by
  constructor
  · intro s now sender asset_id payment s2 effs r rb hr hrb hpos hsum h
    obtain ⟨r', rb', s1, dEffs, hr', hp, _, _, _, _, hamt, hrb', hdist,
      hU1, hle1, hU2, hle2, _, _, hs2, heffs⟩ := buy_nft_inv h
    rw [hr] at hr'
    injection hr' with hr'
    subst hr'
    rw [hrb] at hrb'
    injection hrb' with hrb'
    subst hrb'
    unfold distPart at hdist
    rw [if_pos hpos] at hdist
    obtain ⟨r2, paid, sEffs, hr2, _, _, hsp, _, hs1, hde⟩ := distribute_inv hdist
    rw [hr] at hr2
    injection hr2 with hr2
    subst hr2
    obtain ⟨hpaid1, hpaid2, hpaid3⟩ := splitsPart_paid hsum hsp
    constructor
    · omega
    · rw [heffs, hde]
      rw [paySum_append]
      simp only [paySum]
      rw [paySum_append, paySum_remainderEffs, hpaid2]
      have hMF : museFee r.price ≤ r.price - totalRoyalty r.price rb := hle2
      omega
  · intro s now asset_id s2 effs a rb ha hw hrb hpos hsum h
    obtain ⟨r, rb', s1, dEffs, hr, hrb', hdist, hU1, hle1, hU2, hle2, heffs⟩ :=
      settle_bid_inv ha hw h
    rw [hrb] at hrb'
    injection hrb' with hrb'
    subst hrb'
    unfold distPart at hdist
    rw [if_pos hpos] at hdist
    obtain ⟨r2, paid, sEffs, hr2, _, _, hsp, _, hs1, hde⟩ := distribute_inv hdist
    obtain ⟨hpaid1, hpaid2, hpaid3⟩ := splitsPart_paid hsum hsp
    constructor
    · omega
    · rw [heffs, hde]
      rw [paySum_append]
      simp only [paySum]
      rw [paySum_append, paySum_remainderEffs, hpaid2]
      have hMF : museFee a.highest_bid ≤
          a.highest_bid - totalRoyalty a.highest_bid rb := hle2
      omega

/-- Concrete state for the C1 witness: price 1,000,000, royalty 1000
bps, four registered splits {5000, 2500, 1500, 1000}. -/
def c1st : State :=
  { muse_treasury := 90, app_addr := 99, stats := baseStats,
    nft := upd (fun _ => none) 7
      (some ⟨7, 1000000, 1000, 500, 0, 0, 0, 0, 3⟩),
    auc := fun _ => none,
    spl := upd (fun _ => none) 7
      (some ⟨⟨11, 5000, 0⟩, ⟨12, 2500, 0⟩, ⟨13, 1500, 0⟩, ⟨14, 1000, 0⟩⟩),
    rwa := fun _ => none }

/-- Intermediate state after `distribute_royalties` in the C1 witness. -/
def c1s1 : State := bumpRoyalties c1st 100000

/-- Final state of the C1 witness buy. -/
def c1s2 : State := buyResult c1s1 7 ⟨7, 1000000, 1000, 500, 0, 0, 0, 0, 3⟩

/-- Effects of the C1 witness buy. -/
def c1effs : List Effect :=
  [Effect.pay 90 25000, Effect.pay 11 50000, Effect.pay 12 25000,
   Effect.pay 13 15000, Effect.pay 14 10000, Effect.pay 3 875000,
   Effect.assetTransfer 7 42]

/-- Concrete state for the C1 settlement witness: ended auction with a
winning bid of 900 by bidder 8, royalty 500 bps, no split box. -/
def c1aSt : State :=
  { muse_treasury := 90, app_addr := 99, stats := baseStats,
    nft := upd (fun _ => none) 7 (some ⟨7, 1000, 500, 250, 0, 0, 2, 16, 3⟩),
    auc := upd (fun _ => none) 7 (some ⟨100, 50, 900, 8, 5⟩),
    spl := fun _ => none, rwa := fun _ => none }

/-- Final state of the C1 settlement witness. -/
def c1as2 : State :=
  { bumpRoyalties c1aSt 45 with
      nft := upd (bumpRoyalties c1aSt 45).nft 7
        (some ⟨7, 1000, 500, 250, 0, 0, 3, 16 &&& NOT_IN_AUCTION, 3⟩),
      auc := upd (bumpRoyalties c1aSt 45).auc 7 none,
      stats := { (bumpRoyalties c1aSt 45).stats with
                   total_volume := 900, live_auctions := 0 } }

/-- Effects of the C1 settlement witness. -/
def c1aeffs : List Effect :=
  [Effect.pay 90 22, Effect.pay 3 45, Effect.pay 5 833,
   Effect.assetTransfer 7 8]

/-- Witness for C1 at a concrete input. -/
theorem claim_C1_witness :
    (((1000000 : ℕ) - totalRoyalty 1000000 1000 - museFee 1000000) +
        museFee 1000000 + sharesPaid c1st 7 (totalRoyalty 1000000 1000) +
        (totalRoyalty 1000000 1000 -
          sharesPaid c1st 7 (totalRoyalty 1000000 1000)) = 1000000 ∧
      paySum c1effs = 1000000) ∧
    (((900 : ℕ) - totalRoyalty 900 500 - museFee 900) + museFee 900 +
        sharesPaid c1aSt 7 (totalRoyalty 900 500) +
        (totalRoyalty 900 500 - sharesPaid c1aSt 7 (totalRoyalty 900 500))
      = 900 ∧
      paySum c1aeffs = 900) :=
  ⟨claim_C1.1 c1st 5 42 7 ⟨99, 1000000⟩ c1s2 c1effs
      ⟨7, 1000000, 1000, 500, 0, 0, 0, 0, 3⟩ 1000
      rfl rfl (by decide)
      (fun sp hsp => by
        have h2 : (⟨⟨11, 5000, 0⟩, ⟨12, 2500, 0⟩, ⟨13, 1500, 0⟩, ⟨14, 1000, 0⟩⟩ :
            SplitRecord) = sp := Option.some_inj.mp hsp
        rw [← h2]
        decide)
      (by rfl),
   claim_C1.2 c1aSt 60 7 c1as2 c1aeffs ⟨100, 50, 900, 8, 5⟩ 500
      rfl (by decide) rfl (by decide)
      (fun sp hsp => Option.noConfusion hsp)
      (by rfl)⟩

end Muse

namespace Muse

/-- C9: settling an ended auction with no bidder returns the asset to
the seller recorded at auction start, deletes the auction record, clears
`IN_AUCTION`, leaves the record's transfer count and every other stat
(total_volume, total_royalties_paid, nft_count) untouched, decrements
only `live_auctions` by 1, and emits no payment — the one effect is the
asset transfer back to the seller. -/
theorem claim_C9 {s : State} {now asset_id : ℕ} {s2 : State}
    {effs : List Effect} {a : AuctionRecord} {r : NFTRecord}
    (ha : s.auc asset_id = some a) (hr : s.nft asset_id = some r)
    (hnb : a.highest_bidder = 0)
    (h : settle_auction s now asset_id = some (s2, effs)) :
    effs = [Effect.assetTransfer asset_id a.seller] ∧
    s2.auc asset_id = none ∧
    (∃ r2, s2.nft asset_id = some r2 ∧ r2.transfers = r.transfers ∧
      r2.flags &&& FLAG_IN_AUCTION = 0 ∧
      r2 = { r with flags := r.flags &&& NOT_IN_AUCTION }) ∧
    s2.stats.live_auctions = s.stats.live_auctions - 1 ∧
    1 ≤ s.stats.live_auctions ∧
    s2.stats.total_volume = s.stats.total_volume ∧
    s2.stats.total_royalties_paid = s.stats.total_royalties_paid ∧
    s2.stats.nft_count = s.stats.nft_count := by
  unfold settle_auction at h
  rw [Option.bind_eq_bind, Option.bind_eq_some] at h
  obtain ⟨a2, ha2, h⟩ := h
  rw [ha] at ha2
  injection ha2 with ha2
  subst ha2
  rw [Option.bind_eq_bind, Option.bind_eq_some] at h
  obtain ⟨r2, hr2, h⟩ := h
  rw [hr] at hr2
  injection hr2 with hr2
  subst hr2
  beta_reduce at h
  split at h
  · exact absurd h (by simp)
  simp only [Option.bind_eq_bind, Option.bind_eq_some, Option.pure_def,
    Option.some_inj, Prod.mk.injEq] at h
  obtain ⟨newLive, hlv, hs2, heffs⟩ := h
  obtain ⟨hlive, rfl⟩ := tSub_eq_some.mp hlv
  subst heffs
  refine ⟨rfl, ?_, ?_, ?_, hlive, ?_, ?_, ?_⟩
  · rw [← hs2]
    exact upd_self _ _ _
  · refine ⟨{ r with flags := r.flags &&& NOT_IN_AUCTION }, ?_, rfl,
      mask_clears_in_auction r.flags, rfl⟩
    rw [← hs2]
    exact upd_self _ _ _
  · rw [← hs2]
  · rw [← hs2]
  · rw [← hs2]
  · rw [← hs2]

/-- Concrete pre-state for the C9 witness: one NFT in auction (flags =
IN_AUCTION), one ended auction box with no bids. -/
def c9st : State :=
  { muse_treasury := 90, app_addr := 99, stats := baseStats,
    nft := upd (fun _ => none) 7 (some ⟨7, 1000, 500, 250, 0, 0, 2, 16, 3⟩),
    auc := upd (fun _ => none) 7 (some ⟨100, 50, 0, 0, 5⟩),
    spl := fun _ => none, rwa := fun _ => none }

/-- Concrete post-state for the C9 witness. -/
def c9s2 : State :=
  { c9st with
      nft := upd c9st.nft 7 (some ⟨7, 1000, 500, 250, 0, 0, 2, 16 &&& NOT_IN_AUCTION, 3⟩),
      auc := upd c9st.auc 7 none,
      stats := { baseStats with live_auctions := 0 } }

/-- Witness for C9 at a concrete input (settle at round 60 ≥ 50). -/
theorem claim_C9_witness :
    ([Effect.assetTransfer 7 5] : List Effect) = [Effect.assetTransfer 7 5] ∧
    c9s2.auc 7 = none ∧
    (∃ r2, c9s2.nft 7 = some r2 ∧ r2.transfers = 2 ∧
      r2.flags &&& FLAG_IN_AUCTION = 0 ∧
      r2 = { (⟨7, 1000, 500, 250, 0, 0, 2, 16, 3⟩ : NFTRecord) with
              flags := 16 &&& NOT_IN_AUCTION }) ∧
    c9s2.stats.live_auctions = baseStats.live_auctions - 1 ∧
    1 ≤ baseStats.live_auctions ∧
    c9s2.stats.total_volume = baseStats.total_volume ∧
    c9s2.stats.total_royalties_paid = baseStats.total_royalties_paid ∧
    c9s2.stats.nft_count = baseStats.nft_count :=
  @claim_C9 c9st 60 7 c9s2 [Effect.assetTransfer 7 5] ⟨100, 50, 0, 0, 5⟩
    ⟨7, 1000, 500, 250, 0, 0, 2, 16, 3⟩ rfl rfl rfl (by rfl)

end Muse

namespace Muse

/-- The effective royalty depends only on the royalty-relevant fields of
the record at the asset id. -/
theorem current_royalty_congr {s s2 : State} {now asset_id : ℕ}
    {r r2 : NFTRecord}
    (hr : s.nft asset_id = some r) (hr2 : s2.nft asset_id = some r2)
    (hflags : r2.flags = r.flags) (hroy : r2.royalty_bps = r.royalty_bps)
    (hfloor : r2.floor_bps = r.floor_bps) (hds : r2.decay_start = r.decay_start) :
    current_royalty_bps s2 now asset_id = current_royalty_bps s now asset_id := by
  unfold current_royalty_bps
  rw [hr, hr2]
  simp only [Option.bind_eq_bind, Option.some_bind]
  rw [hflags, hroy, hfloor, hds]

/-- The split payments depend only on the split box at the asset id. -/
theorem splitsPart_congr {s s2 : State} {asset_id TR : ℕ}
    (hspl : s2.spl asset_id = s.spl asset_id) :
    splitsPart s2 asset_id TR = splitsPart s asset_id TR := by
  unfold splitsPart
  rw [hspl]

/-- Construction form of `distribute_royalties`: with every TEAL
intermediate in range, the call succeeds with the explicit state and
effect list. -/
theorem distribute_eq {s : State} {asset_id sale_price royalty_bps paid : ℕ}
    {r : NFTRecord} {sEffs : List Effect}
    (hr : s.nft asset_id = some r)
    (h1 : sale_price * royalty_bps < U64)
    (h2 : sale_price * MUSE_FEE_BPS < U64)
    (hsp : splitsPart s asset_id (sale_price * royalty_bps / BASIS_POINTS) =
      some (paid, sEffs))
    (h3 : s.stats.total_royalties_paid +
      sale_price * royalty_bps / BASIS_POINTS < U64) :
    distribute_royalties s asset_id sale_price royalty_bps =
      some (bumpRoyalties s (sale_price * royalty_bps / BASIS_POINTS),
        Effect.pay s.muse_treasury (sale_price * MUSE_FEE_BPS / BASIS_POINTS) ::
          (sEffs ++ remainderEffs r.creator
            (sale_price * royalty_bps / BASIS_POINTS) paid)) := by
  unfold distribute_royalties
  rw [hr]
  simp only [Option.bind_eq_bind, Option.some_bind]
  unfold tMul tAdd
  rw [if_pos h1]
  simp only [Option.some_bind]
  rw [if_pos h2]
  simp only [Option.some_bind]
  rw [hsp]
  simp only [Option.some_bind]
  rw [if_pos h3]
  simp only [Option.some_bind, Option.pure_def]
  rfl

/-- Construction form of `buy_nft`: with all guards satisfied and every
TEAL intermediate in range, the call succeeds with the explicit state
and effect list. -/
theorem buy_nft_eq {s : State} {now sender asset_id : ℕ} {payment : Payment}
    {r : NFTRecord} {rb : ℕ} {s1 : State} {dEffs : List Effect}
    (hr : s.nft asset_id = some r)
    (hp : r.price ≠ 0)
    (hfa : r.flags &&& FLAG_IN_AUCTION = 0)
    (hfr : r.flags &&& FLAG_RWA_REDEEMED = 0)
    (hfw : ¬(r.flags &&& FLAG_IS_RWA ≠ 0 ∧ r.flags &&& FLAG_RWA_AUTH = 0))
    (hrecv : payment.receiver = s.app_addr)
    (hamt : payment.amount = r.price)
    (hrb : current_royalty_bps s now asset_id = some rb)
    (hdist : distPart s asset_id r.price rb = some (s1, dEffs))
    (hU1 : r.price * rb < U64)
    (hle1 : r.price * rb / BASIS_POINTS ≤ r.price)
    (hU2 : r.price * MUSE_FEE_BPS < U64)
    (hle2 : r.price * MUSE_FEE_BPS / BASIS_POINTS ≤
      r.price - r.price * rb / BASIS_POINTS)
    (hU3 : r.transfers + 1 < U64)
    (hU4 : s1.stats.total_volume + r.price < U64) :
    buy_nft s now sender asset_id payment =
      some (buyResult s1 asset_id r,
        dEffs ++ [Effect.pay r.creator (r.price - r.price * rb / BASIS_POINTS -
            r.price * MUSE_FEE_BPS / BASIS_POINTS),
          Effect.assetTransfer asset_id sender]) := by
  unfold buy_nft
  rw [hr]
  simp only [Option.bind_eq_bind, Option.some_bind]
  rw [if_neg hp]
  rw [if_neg (show ¬ r.flags &&& FLAG_IN_AUCTION ≠ 0 from fun hh => hh hfa)]
  rw [if_neg (show ¬ r.flags &&& FLAG_RWA_REDEEMED ≠ 0 from fun hh => hh hfr)]
  rw [if_neg hfw]
  rw [if_neg (show ¬ payment.receiver ≠ s.app_addr from fun hh => hh hrecv)]
  rw [if_neg (show ¬ payment.amount ≠ r.price from fun hh => hh hamt)]
  rw [hrb]
  simp only [Option.some_bind]
  rw [hdist]
  simp only [Option.some_bind]
  unfold tMul tSub tAdd
  rw [if_pos hU1]
  simp only [Option.some_bind]
  rw [if_pos hle1]
  simp only [Option.some_bind]
  rw [if_pos hU2]
  simp only [Option.some_bind]
  rw [if_pos hle2]
  simp only [Option.some_bind]
  rw [if_pos hU3]
  simp only [Option.some_bind]
  rw [if_pos hU4]
  simp only [Option.some_bind, Option.pure_def]
  rfl

end Muse

namespace Muse

/-- C10: a successful fixed-price buy changes nothing in the asset
record except `transfers`, which grows by exactly 1 (price, royalty,
floor, decay, buyout, flags, creator all unchanged); the seller-net
payment goes to the record's creator; and — because the guards only read
unchanged fields — a second buy of the same asset with the same payment
succeeds again (modulo uint64 headroom on the cumulative counters) and
pays the record's creator again. -/
theorem claim_C10 {s : State} {now sender sender2 asset_id : ℕ}
    {payment : Payment} {s2 : State} {effs : List Effect} {r : NFTRecord}
    (hr : s.nft asset_id = some r)
    (h : buy_nft s now sender asset_id payment = some (s2, effs))
    (hvol : s.stats.total_volume + 2 * r.price < U64)
    (hroy : s.stats.total_royalties_paid + 2 * r.price < U64)
    (htr : r.transfers + 2 < U64)
    (hrmax : r.royalty_bps ≤ BASIS_POINTS) :
    s2.nft asset_id = some { r with transfers := r.transfers + 1 } ∧
    (∃ amt, Effect.pay r.creator amt ∈ effs) ∧
    ∃ s3 effs2, buy_nft s2 now sender2 asset_id payment = some (s3, effs2) ∧
      ∃ amt2, Effect.pay r.creator amt2 ∈ effs2 := by
  obtain ⟨r', rb, s1, dEffs, hr', hp, hfa, hfr, hfw, hrecv, hamt, hrb, hdist,
    hU1, hle1, hU2, hle2, hU3, hU4, hs2, heffs⟩ := buy_nft_inv h
  rw [hr] at hr'
  injection hr' with hr'
  subst hr'
  subst hs2
  subst heffs
  have hrble : rb ≤ r.royalty_bps := current_royalty_le hr hrb
  have hTRle : r.price * rb / BASIS_POINTS ≤ r.price := by
    calc r.price * rb / BASIS_POINTS
        ≤ r.price * BASIS_POINTS / BASIS_POINTS :=
          Nat.div_le_div_right (Nat.mul_le_mul_left _ (by omega))
      _ = r.price := Nat.mul_div_cancel _ (by norm_num [BASIS_POINTS])
  have hr2 : (buyResult s1 asset_id r).nft asset_id =
      some { r with transfers := r.transfers + 1 } := upd_self _ _ _
  refine ⟨hr2, ⟨r.price - totalRoyalty r.price rb - museFee r.price, by simp⟩, ?_⟩
  have hrb2 : current_royalty_bps (buyResult s1 asset_id r) now asset_id =
      some rb := by
    rw [current_royalty_congr hr hr2 rfl rfl rfl rfl]
    exact hrb
  rcases Nat.eq_zero_or_pos rb with hz | hpos
  · subst hz
    unfold distPart at hdist
    rw [if_neg (by omega)] at hdist
    simp only [Option.some_inj, Prod.mk.injEq] at hdist
    obtain ⟨hs1, hde⟩ := hdist
    subst hs1
    subst hde
    refine ⟨_, _, buy_nft_eq hr2 hp hfa hfr hfw
      (show payment.receiver = (buyResult s asset_id r).app_addr from hrecv)
      (show payment.amount = r.price from hamt) hrb2
      (show distPart (buyResult s asset_id r) asset_id r.price 0 =
          some (buyResult s asset_id r, []) by
        unfold distPart
        rw [if_neg (by omega)]) (by simpa using hU1)
      (by simpa using hTRle) hU2
      (by unfold museFee totalRoyalty at hle2; simpa using hle2)
      (show r.transfers + 1 + 1 < U64 by omega) ?_,
      ⟨r.price - r.price * 0 / BASIS_POINTS - r.price * MUSE_FEE_BPS / BASIS_POINTS,
        by simp⟩⟩
    show s.stats.total_volume + r.price + r.price < U64
    omega
  · unfold distPart at hdist
    rw [if_pos hpos] at hdist
    obtain ⟨rD, paid, sEffs, hrD, _, _, hspD, _, hs1, hde⟩ := distribute_inv hdist
    rw [hr] at hrD
    injection hrD with hrD
    subst hrD
    subst hs1
    subst hde
    have hsp2 : splitsPart (buyResult (bumpRoyalties s
        (totalRoyalty r.price rb)) asset_id r) asset_id
        (r.price * rb / BASIS_POINTS) = some (paid, sEffs) := by
      rw [@splitsPart_congr s (buyResult (bumpRoyalties s
        (totalRoyalty r.price rb)) asset_id r) asset_id
        (r.price * rb / BASIS_POINTS) rfl]
      exact hspD
    have hdist2 := distribute_eq (r := { r with transfers := r.transfers + 1 })
      hr2 hU1 hU2 hsp2
      (show s.stats.total_royalties_paid + r.price * rb / BASIS_POINTS +
        r.price * rb / BASIS_POINTS < U64 by omega)
    refine ⟨_, _, buy_nft_eq hr2 hp hfa hfr hfw
      (show payment.receiver =
        (buyResult (bumpRoyalties s (totalRoyalty r.price rb)) asset_id
          r).app_addr from hrecv)
      (show payment.amount = r.price from hamt) hrb2
      (by unfold distPart; rw [if_pos hpos]; exact hdist2) hU1 hTRle hU2
      (by simpa using hle2) (show r.transfers + 1 + 1 < U64 by omega) ?_,
      ⟨r.price - r.price * rb / BASIS_POINTS - r.price * MUSE_FEE_BPS / BASIS_POINTS,
        by simp⟩⟩
    show s.stats.total_volume + r.price + r.price < U64
    omega

end Muse

namespace Muse

/-- Concrete pre-state for the C10 witness. -/
def c10st : State := nftState ⟨7, 1000000, 1000, 500, 0, 0, 0, 0, 3⟩

/-- Concrete post-state of the first C10 witness buy. -/
def c10s2 : State :=
  buyResult (bumpRoyalties c10st 100000) 7 ⟨7, 1000000, 1000, 500, 0, 0, 0, 0, 3⟩

/-- Effects of the first C10 witness buy. -/
def c10effs : List Effect :=
  [Effect.pay 90 25000, Effect.pay 3 100000, Effect.pay 3 875000,
   Effect.assetTransfer 7 42]

/-- Witness for C10 at a concrete input. -/
theorem claim_C10_witness :
    c10s2.nft 7 = some ⟨7, 1000000, 1000, 500, 0, 0, 1, 0, 3⟩ ∧
    (∃ amt, Effect.pay 3 amt ∈ c10effs) ∧
    ∃ s3 effs2, buy_nft c10s2 5 43 7 ⟨99, 1000000⟩ = some (s3, effs2) ∧
      ∃ amt2, Effect.pay 3 amt2 ∈ effs2 :=
  @claim_C10 c10st 5 42 43 7 ⟨99, 1000000⟩ c10s2 c10effs
    ⟨7, 1000000, 1000, 500, 0, 0, 0, 0, 3⟩
    rfl (by rfl) (by decide) (by decide) (by decide) (by decide)

end Muse

namespace Muse

/-- The two one-way RWA lifecycle bits: once set in `r`, still set in
`r2`. -/
def rwaFlagsLe (r r2 : NFTRecord) : Prop :=
  (r.flags &&& FLAG_RWA_AUTH ≠ 0 → r2.flags &&& FLAG_RWA_AUTH ≠ 0) ∧
  (r.flags &&& FLAG_RWA_REDEEMED ≠ 0 → r2.flags &&& FLAG_RWA_REDEEMED ≠ 0)

/-- An operation's NFT-box map transition never clears the
authenticated/redeemed bits of any record. -/
def preservesRwaFlags (nft1 nft2 : ℕ → Option NFTRecord) : Prop :=
  ∀ j r r2, nft1 j = some r → nft2 j = some r2 → rwaFlagsLe r r2

theorem rwaFlagsLe_refl (r : NFTRecord) : rwaFlagsLe r r :=
  ⟨fun h => h, fun h => h⟩

/-- Unchanged flags preserve the lifecycle bits. -/
theorem rwaFlagsLe_of_flags_eq {r r2 : NFTRecord} (h : r2.flags = r.flags) :
    rwaFlagsLe r r2 := by
  unfold rwaFlagsLe
  rw [h]
  exact ⟨fun h => h, fun h => h⟩

/-- `BitwiseOr` with anything preserves the lifecycle bits. -/
theorem rwaFlagsLe_lor {r r2 : NFTRecord} {c : ℕ}
    (h : r2.flags = r.flags ||| c) : rwaFlagsLe r r2 := by
  unfold rwaFlagsLe
  rw [h]
  constructor
  · intro hb
    exact lor_preserves_flag (i := 1) hb
  · intro hb
    exact lor_preserves_flag (i := 2) hb

/-- Clearing `IN_AUCTION` by masking preserves the lifecycle bits. -/
theorem rwaFlagsLe_mask {r r2 : NFTRecord}
    (h : r2.flags = r.flags &&& NOT_IN_AUCTION) : rwaFlagsLe r r2 := by
  unfold rwaFlagsLe
  rw [h]
  constructor
  · intro hb
    exact mask_preserves_low_flag (i := 1) (by omega) hb
  · intro hb
    exact mask_preserves_low_flag (i := 2) (by omega) hb

/-- Setting `RWA_REDEEMED` and clearing `IN_AUCTION` preserves the
lifecycle bits. -/
theorem rwaFlagsLe_lor_mask {r r2 : NFTRecord} {c : ℕ}
    (h : r2.flags = (r.flags ||| c) &&& NOT_IN_AUCTION) : rwaFlagsLe r r2 := by
  unfold rwaFlagsLe
  rw [h]
  constructor
  · intro hb
    exact mask_preserves_low_flag (i := 1) (by omega)
      (lor_preserves_flag (i := 1) hb)
  · intro hb
    exact mask_preserves_low_flag (i := 2) (by omega)
      (lor_preserves_flag (i := 2) hb)

/-- An identical map preserves the lifecycle bits. -/
theorem preservesRwaFlags_same (m : ℕ → Option NFTRecord) :
    preservesRwaFlags m m := by
  intro j r r2 h1 h2
  rw [h1] at h2
  injection h2 with h2
  subst h2
  exact rwaFlagsLe_refl r

/-- Updating the record at one key with lifecycle-bit-preserving flags
preserves the lifecycle bits of every record. -/
theorem preservesRwaFlags_upd {m : ℕ → Option NFTRecord} {k : ℕ}
    {rk rk2 : NFTRecord} (hm : m k = some rk) (hle : rwaFlagsLe rk rk2) :
    preservesRwaFlags m (upd m k (some rk2)) := by
  intro j r r2 h1 h2
  by_cases hjk : j = k
  · subst hjk
    rw [upd_self] at h2
    injection h2 with h2
    subst h2
    rw [hm] at h1
    injection h1 with h1
    subst h1
    exact hle
  · rw [upd_ne _ _ hjk, h1] at h2
    injection h2 with h2
    subst h2
    exact rwaFlagsLe_refl r

/-- Writing a record at a previously empty key preserves the lifecycle
bits of every existing record. -/
theorem preservesRwaFlags_upd_fresh {m : ℕ → Option NFTRecord} {k : ℕ}
    {v : Option NFTRecord} (hm : m k = none) :
    preservesRwaFlags m (upd m k v) := by
  intro j r r2 h1 h2
  by_cases hjk : j = k
  · subst hjk
    rw [hm] at h1
    exact absurd h1 (by simp)
  · rw [upd_ne _ _ hjk, h1] at h2
    injection h2 with h2
    subst h2
    exact rwaFlagsLe_refl r

end Muse

namespace Muse

/-- The royalty phase never touches the NFT box map. -/
theorem distPart_nft {s : State} {asset_id sp rb : ℕ} {s1 : State}
    {dEffs : List Effect} (h : distPart s asset_id sp rb = some (s1, dEffs)) :
    s1.nft = s.nft := by
  unfold distPart at h
  split at h
  · obtain ⟨r, paid, sEffs, _, _, _, _, _, hs1, _⟩ := distribute_inv h
    subst hs1
    rfl
  · simp only [Option.some_inj, Prod.mk.injEq] at h
    obtain ⟨h1, _⟩ := h
    rw [← h1]

/-- `validate_physical_asset` never clears the lifecycle bits. -/
theorem validate_preserves {s : State} {sender asset_id : ℕ} {s2 : State}
    {effs : List Effect}
    (h : validate_physical_asset s sender asset_id = some (s2, effs)) :
    preservesRwaFlags s.nft s2.nft := by
  unfold validate_physical_asset at h
  simp only [Option.bind_eq_bind, Option.bind_eq_some, Option.pure_def,
    Option.some_inj, Prod.mk.injEq] at h
  obtain ⟨rw, hrw, r, hr, h⟩ := h
  split at h
  · exact absurd h (by simp)
  split at h
  · exact absurd h (by simp)
  simp only [Option.some_inj, Prod.mk.injEq] at h
  obtain ⟨hs2, heffs⟩ := h
  subst hs2
  exact preservesRwaFlags_upd hr (rwaFlagsLe_lor rfl)

/-- `redeem_physical_asset` never clears the lifecycle bits. -/
theorem redeem_preserves {s : State} {now sender asset_id : ℕ} {s2 : State}
    {effs : List Effect}
    (h : redeem_physical_asset s now sender asset_id = some (s2, effs)) :
    preservesRwaFlags s.nft s2.nft := by
  unfold redeem_physical_asset at h
  simp only [Option.bind_eq_bind, Option.bind_eq_some, Option.pure_def,
    Option.some_inj, Prod.mk.injEq] at h
  obtain ⟨rw, hrw, r, hr, h⟩ := h
  split at h
  · exact absurd h (by simp)
  split at h
  · exact absurd h (by simp)
  split at h
  · exact absurd h (by simp)
  simp only [Option.some_inj, Prod.mk.injEq] at h
  obtain ⟨hs2, heffs⟩ := h
  subst hs2
  exact preservesRwaFlags_upd hr (rwaFlagsLe_lor_mask rfl)

/-- `buy_out_royalty` never clears the lifecycle bits. -/
theorem buy_out_preserves {s : State} {asset_id : ℕ} {payment : Payment}
    {s2 : State} {effs : List Effect}
    (h : buy_out_royalty s asset_id payment = some (s2, effs)) :
    preservesRwaFlags s.nft s2.nft := by
  unfold buy_out_royalty at h
  simp only [Option.bind_eq_bind, Option.bind_eq_some, Option.pure_def,
    Option.some_inj, Prod.mk.injEq] at h
  obtain ⟨r, hr, h⟩ := h
  split at h
  · exact absurd h (by simp)
  split at h
  · exact absurd h (by simp)
  split at h
  · exact absurd h (by simp)
  split at h
  · exact absurd h (by simp)
  simp only [Option.bind_eq_some, Option.some_inj, Prod.mk.injEq] at h
  obtain ⟨cutP, hcut, muse_cut, hmc, hs2, heffs⟩ := h
  subst hs2
  exact preservesRwaFlags_upd hr (rwaFlagsLe_lor rfl)

/-- `register_co_creators` never clears the lifecycle bits. -/
theorem register_preserves {s : State} {sender asset_id a1 b1 a2 b2 a3 b3 a4 b4 : ℕ}
    {s2 : State} {effs : List Effect}
    (h : register_co_creators s sender asset_id a1 b1 a2 b2 a3 b3 a4 b4 =
      some (s2, effs)) :
    preservesRwaFlags s.nft s2.nft := by
  unfold register_co_creators at h
  simp only [Option.bind_eq_bind, Option.bind_eq_some, Option.pure_def,
    Option.some_inj, Prod.mk.injEq] at h
  obtain ⟨r, hr, h⟩ := h
  split at h
  · exact absurd h (by simp)
  split at h
  · exact absurd h (by simp)
  simp only [Option.some_inj, Prod.mk.injEq] at h
  obtain ⟨hs2, heffs⟩ := h
  subst hs2
  exact preservesRwaFlags_upd hr (rwaFlagsLe_lor rfl)

/-- `accept_collaboration` never touches the NFT box map. -/
theorem accept_preserves {s : State} {sender asset_id : ℕ}
    {s2 : State} {effs : List Effect}
    (h : accept_collaboration s sender asset_id = some (s2, effs)) :
    preservesRwaFlags s.nft s2.nft := by
  unfold accept_collaboration at h
  simp only [Option.bind_eq_bind, Option.bind_eq_some, Option.pure_def,
    Option.some_inj, Prod.mk.injEq] at h
  obtain ⟨sp, hsp, h⟩ := h
  split at h
  · simp only [Option.some_inj, Prod.mk.injEq] at h
    obtain ⟨hs2, heffs⟩ := h
    subst hs2
    exact preservesRwaFlags_same s.nft
  · exact absurd h (by simp)

/-- `buy_nft` never clears the lifecycle bits. -/
theorem buy_preserves {s : State} {now sender asset_id : ℕ} {payment : Payment}
    {s2 : State} {effs : List Effect}
    (h : buy_nft s now sender asset_id payment = some (s2, effs)) :
    preservesRwaFlags s.nft s2.nft := by
  obtain ⟨r, rb, s1, dEffs, hr, _, _, _, _, _, _, _, hdist, _, _, _, _, _, _,
    hs2, _⟩ := buy_nft_inv h
  subst hs2
  have hn : s1.nft = s.nft := distPart_nft hdist
  unfold buyResult
  simp only [hn]
  exact preservesRwaFlags_upd hr (rwaFlagsLe_of_flags_eq rfl)

/-- `start_auction` never clears the lifecycle bits. -/
theorem start_auction_preserves {s : State} {now sender asset_id dr rp : ℕ}
    {s2 : State} {effs : List Effect}
    (h : start_auction s now sender asset_id dr rp = some (s2, effs)) :
    preservesRwaFlags s.nft s2.nft := by
  unfold start_auction at h
  simp only [Option.bind_eq_bind, Option.bind_eq_some, Option.pure_def,
    Option.some_inj, Prod.mk.injEq] at h
  obtain ⟨r, hr, h⟩ := h
  split at h
  · exact absurd h (by simp)
  split at h
  · exact absurd h (by simp)
  split at h
  · exact absurd h (by simp)
  simp only [Option.bind_eq_some, Option.some_inj, Prod.mk.injEq] at h
  obtain ⟨endR, hendR, newLive, hnl, hs2, heffs⟩ := h
  subst hs2
  exact preservesRwaFlags_upd hr (rwaFlagsLe_lor rfl)

/-- `place_bid` never touches the NFT box map. -/
theorem place_bid_preserves {s : State} {now sender asset_id : ℕ}
    {payment : Payment} {s2 : State} {effs : List Effect}
    (h : place_bid s now sender asset_id payment = some (s2, effs)) :
    preservesRwaFlags s.nft s2.nft := by
  cases ha : s.auc asset_id with
  | none =>
    unfold place_bid at h
    rw [ha] at h
    exact absurd h (by simp)
  | some a =>
    obtain ⟨_, _, _, _, newEnd, _, hs2⟩ := place_bid_inv ha h
    subst hs2
    exact preservesRwaFlags_same s.nft

/-- `update_treasury` never touches the NFT box map. -/
theorem update_treasury_preserves {s : State} {sender app_creator nt : ℕ}
    {s2 : State} {effs : List Effect}
    (h : update_treasury s sender app_creator nt = some (s2, effs)) :
    preservesRwaFlags s.nft s2.nft := by
  unfold update_treasury at h
  split at h
  · simp only [Option.some_inj, Prod.mk.injEq] at h
    obtain ⟨hs2, heffs⟩ := h
    subst hs2
    exact preservesRwaFlags_same s.nft
  · exact absurd h (by simp)

/-- `mint_nft` at a fresh asset id never clears the lifecycle bits of
any existing record. -/
theorem mint_nft_preserves {s : State} {now sender new_asset_id p rb fb da bp : ℕ}
    {s2 : State} {effs : List Effect}
    (hfresh : s.nft new_asset_id = none)
    (h : mint_nft s now sender new_asset_id p rb fb da bp = some (s2, effs)) :
    preservesRwaFlags s.nft s2.nft := by
  unfold mint_nft at h
  split at h
  · exact absurd h (by simp)
  split at h
  · exact absurd h (by simp)
  split at h
  · simp only [Option.bind_eq_bind, Option.bind_eq_some, Option.pure_def,
      Option.some_inj, Prod.mk.injEq] at h
    obtain ⟨ds, hds, newCount, hnc, hs2, heffs⟩ := h
    subst hs2
    exact preservesRwaFlags_upd_fresh hfresh
  · simp only [Option.bind_eq_bind, Option.bind_eq_some, Option.pure_def,
      Option.some_inj, Prod.mk.injEq] at h
    obtain ⟨ds, hds, newCount, hnc, hs2, heffs⟩ := h
    subst hs2
    exact preservesRwaFlags_upd_fresh hfresh

/-- `mint_rwa` at a fresh asset id never clears the lifecycle bits of
any existing record. -/
theorem mint_rwa_preserves {s : State}
    {now sender new_asset_id ph cu au p rb fb da bp : ℕ}
    {s2 : State} {effs : List Effect}
    (hfresh : s.nft new_asset_id = none)
    (h : mint_rwa s now sender new_asset_id ph cu au p rb fb da bp =
      some (s2, effs)) :
    preservesRwaFlags s.nft s2.nft := by
  unfold mint_rwa at h
  split at h
  · exact absurd h (by simp)
  split at h
  · simp only [Option.bind_eq_bind, Option.bind_eq_some, Option.pure_def,
      Option.some_inj, Prod.mk.injEq] at h
    obtain ⟨ds, hds, newCount, hnc, hs2, heffs⟩ := h
    subst hs2
    exact preservesRwaFlags_upd_fresh hfresh
  · simp only [Option.bind_eq_bind, Option.bind_eq_some, Option.pure_def,
      Option.some_inj, Prod.mk.injEq] at h
    obtain ⟨ds, hds, newCount, hnc, hs2, heffs⟩ := h
    subst hs2
    exact preservesRwaFlags_upd_fresh hfresh

end Muse

namespace Muse

/-- `settle_auction` never clears the lifecycle bits (either branch only
masks out `IN_AUCTION`). -/
theorem settle_preserves {s : State} {now asset_id : ℕ} {s2 : State}
    {effs : List Effect}
    (h : settle_auction s now asset_id = some (s2, effs)) :
    preservesRwaFlags s.nft s2.nft := by
  unfold settle_auction at h
  rw [Option.bind_eq_bind, Option.bind_eq_some] at h
  obtain ⟨a, ha, h⟩ := h
  rw [Option.bind_eq_bind, Option.bind_eq_some] at h
  obtain ⟨r, hr, h⟩ := h
  beta_reduce at h
  split at h
  · exact absurd h (by simp)
  split at h
  · simp only [Option.bind_eq_bind, Option.bind_eq_some, Option.pure_def,
      Option.some_inj, Prod.mk.injEq] at h
    obtain ⟨newLive, hlv, hs2, heffs⟩ := h
    subst hs2
    exact preservesRwaFlags_upd hr (rwaFlagsLe_mask rfl)
  · simp only [Option.bind_eq_bind, Option.bind_eq_some, Option.pure_def,
      Option.some_inj, Prod.mk.injEq] at h
    obtain ⟨rb, hrb, s1effs, hdist, trP, htrP, sub1, hsub1, mfP, hmfP, net,
      hnet, nt, hnt, nv, hnv, nl, hnl, hs2, heffs⟩ := h
    subst hs2
    have hn : s1effs.1.nft = s.nft :=
      @distPart_nft s asset_id a.highest_bid rb s1effs.1 s1effs.2 (by rw [hdist])
    show preservesRwaFlags s.nft (upd s1effs.1.nft asset_id _)
    rw [hn]
    exact preservesRwaFlags_upd hr (rwaFlagsLe_mask rfl)

end Muse

namespace Muse

/-- Setting a single-bit flag really sets it. -/
theorem lor_flag_set (x i : ℕ) : (x ||| 2 ^ i) &&& 2 ^ i ≠ 0 := by
  rw [land_two_pow_ne_zero]
  simp [Nat.testBit_lor]

/-- Inversion of a successful `validate_physical_asset`. -/
theorem validate_inv {s : State} {sender asset_id : ℕ} {s2 : State}
    {effs : List Effect}
    (h : validate_physical_asset s sender asset_id = some (s2, effs)) :
    ∃ rw r, s.rwa asset_id = some rw ∧ s.nft asset_id = some r ∧
      rw.authenticator = sender ∧ r.flags &&& FLAG_RWA_AUTH = 0 ∧
      s2 = { s with nft := upd s.nft asset_id (some { r with flags := r.flags ||| FLAG_RWA_AUTH }) } ∧
      effs = [Effect.assetFreeze asset_id sender false] := by
  unfold validate_physical_asset at h
  simp only [Option.bind_eq_bind, Option.bind_eq_some, Option.pure_def,
    Option.some_inj, Prod.mk.injEq] at h
  obtain ⟨rw, hrw, r, hr, h⟩ := h
  split at h
  · exact absurd h (by simp)
  split at h
  · exact absurd h (by simp)
  rename_i hauth hflag
  simp only [Option.some_inj, Prod.mk.injEq] at h
  obtain ⟨hs2, heffs⟩ := h
  exact ⟨rw, r, hrw, hr, by tauto, by tauto, hs2.symm, heffs.symm⟩

/-- Inversion of a successful `redeem_physical_asset`. -/
theorem redeem_inv {s : State} {now sender asset_id : ℕ} {s2 : State}
    {effs : List Effect}
    (h : redeem_physical_asset s now sender asset_id = some (s2, effs)) :
    ∃ rw r, s.rwa asset_id = some rw ∧ s.nft asset_id = some r ∧
      rw.custodian = sender ∧ r.flags &&& FLAG_RWA_REDEEMED = 0 ∧
      r.flags &&& FLAG_RWA_AUTH ≠ 0 ∧
      s2 = { s with rwa := upd s.rwa asset_id (some { rw with redemption_round := now }), nft := upd s.nft asset_id (some { r with flags := (r.flags ||| FLAG_RWA_REDEEMED) &&& NOT_IN_AUCTION }) } ∧
      effs = [] := by
  unfold redeem_physical_asset at h
  simp only [Option.bind_eq_bind, Option.bind_eq_some, Option.pure_def,
    Option.some_inj, Prod.mk.injEq] at h
  obtain ⟨rw, hrw, r, hr, h⟩ := h
  split at h
  · exact absurd h (by simp)
  split at h
  · exact absurd h (by simp)
  split at h
  · exact absurd h (by simp)
  rename_i hcust hred hauth
  simp only [Option.some_inj, Prod.mk.injEq] at h
  obtain ⟨hs2, heffs⟩ := h
  exact ⟨rw, r, hrw, hr, by tauto, by tauto, by tauto, hs2.symm, heffs.symm⟩

/-- A record already authenticated can never be validated again. -/
theorem validate_again_none {s : State} {sender asset_id : ℕ} {r : NFTRecord}
    (hr : s.nft asset_id = some r) (hauth : r.flags &&& FLAG_RWA_AUTH ≠ 0) :
    validate_physical_asset s sender asset_id = none := by
  unfold validate_physical_asset
  cases hrw : s.rwa asset_id with
  | none => rfl
  | some rw =>
    simp only [Option.bind_eq_bind, Option.some_bind]
    rw [hr]
    simp only [Option.some_bind]
    split
    · rfl
    · rfl

/-- A record already redeemed can never be redeemed again. -/
theorem redeem_again_none {s : State} {now sender asset_id : ℕ} {r : NFTRecord}
    (hr : s.nft asset_id = some r)
    (hred : r.flags &&& FLAG_RWA_REDEEMED ≠ 0) :
    redeem_physical_asset s now sender asset_id = none := by
  unfold redeem_physical_asset
  cases hrw : s.rwa asset_id with
  | none => rfl
  | some rw =>
    simp only [Option.bind_eq_bind, Option.some_bind]
    rw [hr]
    simp only [Option.some_bind]
    split
    · rfl
    · rfl

/-- A record that is not authenticated can never be redeemed. -/
theorem redeem_not_auth_none {s : State} {now sender asset_id : ℕ}
    {r : NFTRecord} (hr : s.nft asset_id = some r)
    (hna : r.flags &&& FLAG_RWA_AUTH = 0) :
    redeem_physical_asset s now sender asset_id = none := by
  unfold redeem_physical_asset
  cases hrw : s.rwa asset_id with
  | none => rfl
  | some rw =>
    simp only [Option.bind_eq_bind, Option.some_bind]
    rw [hr]
    simp only [Option.some_bind]
    split
    · rfl
    · split
      · rfl
      · rfl

end Muse

namespace Muse

/-- C8: RWA lifecycle.  `validate_physical_asset` succeeds only for the
stored authenticator on a not-yet-authenticated record, sets
`RWA_AUTHENTICATED`, and can never succeed a second time;
`redeem_physical_asset` succeeds only for the stored custodian on an
authenticated, not-yet-redeemed record, sets `RWA_REDEEMED`, and can
never succeed a second time; redemption always fails while the record
is unauthenticated; and no operation of the contract (fixed-price buy,
royalty buy-out, co-creator registration/acceptance, auction start/bid/
settlement, treasury update, validation, redemption, or minting at a
fresh asset id) ever clears an `RWA_AUTHENTICATED` or `RWA_REDEEMED`
bit once set, on any record. -/
theorem claim_C8 :
    (∀ (s : State) (sender asset_id : ℕ) (s2 : State) (effs : List Effect)
        (rw : RWARecord) (r : NFTRecord),
        s.rwa asset_id = some rw → s.nft asset_id = some r →
        validate_physical_asset s sender asset_id = some (s2, effs) →
        sender = rw.authenticator ∧ r.flags &&& FLAG_RWA_AUTH = 0 ∧
        (∃ r2, s2.nft asset_id = some r2 ∧ r2.flags &&& FLAG_RWA_AUTH ≠ 0) ∧
        (∀ sender2, validate_physical_asset s2 sender2 asset_id = none)) ∧
    (∀ (s : State) (now sender asset_id : ℕ) (s2 : State) (effs : List Effect)
        (rw : RWARecord) (r : NFTRecord),
        s.rwa asset_id = some rw → s.nft asset_id = some r →
        redeem_physical_asset s now sender asset_id = some (s2, effs) →
        sender = rw.custodian ∧ r.flags &&& FLAG_RWA_AUTH ≠ 0 ∧
        r.flags &&& FLAG_RWA_REDEEMED = 0 ∧
        (∃ r2, s2.nft asset_id = some r2 ∧ r2.flags &&& FLAG_RWA_REDEEMED ≠ 0 ∧
          r2.flags &&& FLAG_RWA_AUTH ≠ 0) ∧
        (∀ now2 sender2, redeem_physical_asset s2 now2 sender2 asset_id = none)) ∧
    (∀ (s : State) (now sender asset_id : ℕ) (r : NFTRecord),
        s.nft asset_id = some r → r.flags &&& FLAG_RWA_AUTH = 0 →
        redeem_physical_asset s now sender asset_id = none) ∧
    (∀ (s : State) (sender asset_id : ℕ) (s2 : State) (effs : List Effect),
        validate_physical_asset s sender asset_id = some (s2, effs) →
        preservesRwaFlags s.nft s2.nft) ∧
    (∀ (s : State) (now sender asset_id : ℕ) (s2 : State) (effs : List Effect),
        redeem_physical_asset s now sender asset_id = some (s2, effs) →
        preservesRwaFlags s.nft s2.nft) ∧
    (∀ (s : State) (now sender asset_id : ℕ) (payment : Payment) (s2 : State)
        (effs : List Effect),
        buy_nft s now sender asset_id payment = some (s2, effs) →
        preservesRwaFlags s.nft s2.nft) ∧
    (∀ (s : State) (asset_id : ℕ) (payment : Payment) (s2 : State)
        (effs : List Effect),
        buy_out_royalty s asset_id payment = some (s2, effs) →
        preservesRwaFlags s.nft s2.nft) ∧
    (∀ (s : State) (sender asset_id a1 b1 a2 b2 a3 b3 a4 b4 : ℕ) (s2 : State)
        (effs : List Effect),
        register_co_creators s sender asset_id a1 b1 a2 b2 a3 b3 a4 b4 =
          some (s2, effs) →
        preservesRwaFlags s.nft s2.nft) ∧
    (∀ (s : State) (sender asset_id : ℕ) (s2 : State) (effs : List Effect),
        accept_collaboration s sender asset_id = some (s2, effs) →
        preservesRwaFlags s.nft s2.nft) ∧
    (∀ (s : State) (now sender asset_id dr rp : ℕ) (s2 : State)
        (effs : List Effect),
        start_auction s now sender asset_id dr rp = some (s2, effs) →
        preservesRwaFlags s.nft s2.nft) ∧
    (∀ (s : State) (now sender asset_id : ℕ) (payment : Payment) (s2 : State)
        (effs : List Effect),
        place_bid s now sender asset_id payment = some (s2, effs) →
        preservesRwaFlags s.nft s2.nft) ∧
    (∀ (s : State) (now asset_id : ℕ) (s2 : State) (effs : List Effect),
        settle_auction s now asset_id = some (s2, effs) →
        preservesRwaFlags s.nft s2.nft) ∧
    (∀ (s : State) (sender app_creator nt : ℕ) (s2 : State)
        (effs : List Effect),
        update_treasury s sender app_creator nt = some (s2, effs) →
        preservesRwaFlags s.nft s2.nft) ∧
    (∀ (s : State) (now sender new_asset_id p rb fb da bp : ℕ) (s2 : State)
        (effs : List Effect),
        s.nft new_asset_id = none →
        mint_nft s now sender new_asset_id p rb fb da bp = some (s2, effs) →
        preservesRwaFlags s.nft s2.nft) ∧
    (∀ (s : State) (now sender new_asset_id ph cu au p rb fb da bp : ℕ)
        (s2 : State) (effs : List Effect),
        s.nft new_asset_id = none →
        mint_rwa s now sender new_asset_id ph cu au p rb fb da bp =
          some (s2, effs) →
        preservesRwaFlags s.nft s2.nft) := by
  refine ⟨?_, ?_, ?_, ?_, ?_, ?_, ?_, ?_, ?_, ?_, ?_, ?_, ?_, ?_, ?_⟩
  · intro s sender asset_id s2 effs rw r hrw hr h
    obtain ⟨rw2, r2, hrw2, hr2, hauth, hflag, hs2, heffs⟩ := validate_inv h
    rw [hrw] at hrw2
    injection hrw2 with hrw2
    subst hrw2
    rw [hr] at hr2
    injection hr2 with hr2
    subst hr2
    subst hs2
    have hnft2 : ({ s with nft := upd s.nft asset_id (some { r with flags := r.flags ||| FLAG_RWA_AUTH }) } : State).nft asset_id = some { r with flags := r.flags ||| FLAG_RWA_AUTH } :=
      upd_self _ _ _
    refine ⟨hauth.symm, hflag, ⟨_, hnft2, lor_flag_set r.flags 1⟩, ?_⟩
    intro sender2
    exact validate_again_none hnft2 (lor_flag_set r.flags 1)
  · intro s now sender asset_id s2 effs rw r hrw hr h
    obtain ⟨rw2, r2, hrw2, hr2, hcust, hnred, hauth, hs2, heffs⟩ := redeem_inv h
    rw [hrw] at hrw2
    injection hrw2 with hrw2
    subst hrw2
    rw [hr] at hr2
    injection hr2 with hr2
    subst hr2
    subst hs2
    have hnft2 : ({ s with rwa := upd s.rwa asset_id (some { rw with redemption_round := now }), nft := upd s.nft asset_id (some { r with flags := (r.flags ||| FLAG_RWA_REDEEMED) &&& NOT_IN_AUCTION }) } : State).nft asset_id = some { r with flags := (r.flags ||| FLAG_RWA_REDEEMED) &&& NOT_IN_AUCTION } :=
      upd_self _ _ _
    have hredset : ((r.flags ||| FLAG_RWA_REDEEMED) &&& NOT_IN_AUCTION) &&&
        FLAG_RWA_REDEEMED ≠ 0 :=
      mask_preserves_low_flag (i := 2) (by omega) (lor_flag_set r.flags 2)
    have hauthset : ((r.flags ||| FLAG_RWA_REDEEMED) &&& NOT_IN_AUCTION) &&&
        FLAG_RWA_AUTH ≠ 0 :=
      mask_preserves_low_flag (i := 1) (by omega)
        (lor_preserves_flag (i := 1) hauth)
    refine ⟨hcust.symm, hauth, hnred, ⟨_, hnft2, hredset, hauthset⟩, ?_⟩
    intro now2 sender2
    exact redeem_again_none hnft2 hredset
  · intro s now sender asset_id r hr hna
    exact redeem_not_auth_none hr hna
  · intro s sender asset_id s2 effs h
    exact validate_preserves h
  · intro s now sender asset_id s2 effs h
    exact redeem_preserves h
  · intro s now sender asset_id payment s2 effs h
    exact buy_preserves h
  · intro s asset_id payment s2 effs h
    exact buy_out_preserves h
  · intro s sender asset_id a1 b1 a2 b2 a3 b3 a4 b4 s2 effs h
    exact register_preserves h
  · intro s sender asset_id s2 effs h
    exact accept_preserves h
  · intro s now sender asset_id dr rp s2 effs h
    exact start_auction_preserves h
  · intro s now sender asset_id payment s2 effs h
    exact place_bid_preserves h
  · intro s now asset_id s2 effs h
    exact settle_preserves h
  · intro s sender app_creator nt s2 effs h
    exact update_treasury_preserves h
  · intro s now sender new_asset_id p rb fb da bp s2 effs hfresh h
    exact mint_nft_preserves hfresh h
  · intro s now sender new_asset_id ph cu au p rb fb da bp s2 effs hfresh h
    exact mint_rwa_preserves hfresh h

end Muse

namespace Muse

/-- Concrete pre-state for the C8 witness: an RWA asset (flags = IS_RWA)
with custodian 8 and authenticator 9. -/
def c8st : State :=
  { muse_treasury := 90, app_addr := 99, stats := baseStats,
    nft := upd (fun _ => none) 7 (some ⟨7, 1000, 500, 250, 0, 0, 0, 1, 3⟩),
    auc := fun _ => none, spl := fun _ => none,
    rwa := upd (fun _ => none) 7 (some ⟨55, 8, 9, 0⟩) }

/-- Concrete post-state after the authenticator validates asset 7. -/
def c8s2 : State :=
  { c8st with nft := upd c8st.nft 7 (some ⟨7, 1000, 500, 250, 0, 0, 0, 3, 3⟩) }

/-- Witness for C8 at a concrete input: after a successful validation by
the stored authenticator, a second validation attempt fails. -/
theorem claim_C8_witness : validate_physical_asset c8s2 42 7 = none :=
  (claim_C8.1 c8st 9 7 c8s2 [Effect.assetFreeze 7 9 false] ⟨55, 8, 9, 0⟩
    ⟨7, 1000, 500, 250, 0, 0, 0, 1, 3⟩ rfl rfl (by rfl)).2.2.2 42

end Muse
